import Mathlib

/-!
Verification of the Super Notation (SN) v1.0 interpreter.

This file embeds the core of the repository — the canonicalization and
signing utilities of `sn_signing.py` and the parser/renderer of
`sn_parser.py` — as executable Lean definitions, and proves (or refutes)
the specification claims about them.

Conventions of the embedding:
* Python `str` values are modelled as `List Char`; Python `bytes` values
  are modelled as `List Nat` with every element a byte value.
* Python `str.strip` / `str.lower` are modelled on the ASCII range
  (`bytes.strip` / `bytes.lower` in Python are ASCII-only already; the
  `str` variants agree with the ASCII model on every input considered by
  the theorems below).
* Python file reads in text mode decode UTF-8 and apply universal newline
  translation; both steps are modelled explicitly.
-/

namespace SN

abbrev Str := List Char


/-- Whitespace bytes stripped by `bytes.strip()` / `bytes.lstrip()`:
space, tab, newline, carriage return, vertical tab, form feed. -/
def byteWs (b : Nat) : Bool :=
  b == 32 || b == 9 || b == 10 || b == 13 || b == 11 || b == 12


/-- Python whitespace characters recognised by `str.strip()` in the ASCII
range (stated on the code point). -/
def pyWs (c : Char) : Bool := byteWs c.toNat


/-- ASCII lower-casing of one character, as `str.lower()` acts on ASCII
(stated on the code point). -/
def asciiLowerChar (c : Char) : Char :=
  if 65 ≤ c.toNat ∧ c.toNat ≤ 90 then Char.ofNat (c.toNat + 32) else c


/-- `s.lower()` restricted to the ASCII range. -/
def pyLower (s : Str) : Str := s.map asciiLowerChar


/-- `s.lstrip()`. -/
def pyLstrip (s : Str) : Str := s.dropWhile pyWs


/-- `s.rstrip()`. -/
def pyRstrip (s : Str) : Str := (s.reverse.dropWhile pyWs).reverse


/-- `s.strip()`. -/
def pyStrip (s : Str) : Str := pyRstrip (pyLstrip s)


/-- `bytes.lower()` on one byte (ASCII-only, as in Python). -/
def bLower (b : Nat) : Nat := if 65 ≤ b ∧ b ≤ 90 then b + 32 else b


/-- `bytes.lstrip()`. -/
def bLstrip (s : List Nat) : List Nat := s.dropWhile byteWs


/-- `bytes.strip()`. -/
def bStrip (s : List Nat) : List Nat :=
  ((s.dropWhile byteWs).reverse.dropWhile byteWs).reverse


/-- Python `x.split(sep)` for a one-element separator, on lists. -/
def splitSep {α : Type} [DecidableEq α] (sep : α) : List α → List (List α)
  | [] => [[]]
  | a :: t =>
    match splitSep sep t with
    | h :: r => if a = sep then [] :: h :: r else (a :: h) :: r
    | [] => [[a]]


/-- Python `sep.join(xs)` for a one-element separator, on lists. -/
def joinSep {α : Type} (sep : α) : List (List α) → List α
  | [] => []
  | [l] => l
  | l :: ls => l ++ sep :: joinSep sep ls


/-! ## UTF-8 encoding and decoding -/

/-- UTF-8 encoding of a single character. -/
def utf8EncodeChar (c : Char) : List Nat :=
  let n := c.toNat
  if n < 128 then [n]
  else if n < 2048 then [192 + n / 64, 128 + n % 64]
  else if n < 65536 then [224 + n / 4096, 128 + (n / 64) % 64, 128 + n % 64]
  else [240 + n / 262144, 128 + (n / 4096) % 64, 128 + (n / 64) % 64, 128 + n % 64]


/-- UTF-8 encoding of a string (Python `s.encode('utf-8')`). -/
def utf8Encode (s : Str) : List Nat := (s.map utf8EncodeChar).flatten


/-- Is this byte a UTF-8 continuation byte? -/
def isCont (b : Nat) : Bool := 128 ≤ b && b < 192


/-- One UTF-8 decoding step at lead byte `b` followed by `t`: `none` is a
decoding error at `b` (stray continuation byte, overlong or invalid lead,
missing or malformed continuation bytes, surrogate or out-of-range code
point); otherwise the decoded character and the remaining bytes. -/
def utf8Step (b : Nat) (t : List Nat) : Option (Char × List Nat) :=
  if b < 128 then some (Char.ofNat b, t)
  else if b < 194 then none
  else if b < 224 then
    match t with
    | b2 :: t2 =>
      if isCont b2 then some (Char.ofNat ((b - 192) * 64 + (b2 - 128)), t2) else none
    | [] => none
  else if b < 240 then
    match t with
    | b2 :: b3 :: t3 =>
      if isCont b2 && isCont b3 then
        let n := (b - 224) * 4096 + (b2 - 128) * 64 + (b3 - 128)
        if n < 2048 ∨ (55296 ≤ n ∧ n < 57344) then none
        else some (Char.ofNat n, t3)
      else none
    | _ => none
  else if b < 245 then
    match t with
    | b2 :: b3 :: b4 :: t4 =>
      if isCont b2 && isCont b3 && isCont b4 then
        let n := (b - 240) * 262144 + (b2 - 128) * 4096 + (b3 - 128) * 64 + (b4 - 128)
        if n < 65536 ∨ 1114112 ≤ n then none
        else some (Char.ofNat n, t4)
      else none
    | _ => none
  else none


/-- Strict UTF-8 decoding (Python `bytes.decode('utf-8')`); `none` models
a `UnicodeDecodeError`.  The fuel is the byte count; every step consumes
at least one byte, so the fuel never runs out. -/
def utf8DecodeStrictAux : Nat → List Nat → Option Str
  | _, [] => some []
  | 0, _ => none
  | fuel + 1, b :: t =>
    match utf8Step b t with
    | none => none
    | some p =>
      match utf8DecodeStrictAux fuel p.2 with
      | some s => some (p.1 :: s)
      | none => none


def utf8DecodeStrict (l : List Nat) : Option Str := utf8DecodeStrictAux l.length l


/-- UTF-8 decoding with `errors='ignore'`: an undecodable byte is skipped
and decoding resumes at the next byte.  The fuel is the byte count; every
step consumes at least one byte, so the fuel never runs out. -/
def utf8DecodeIgnoreAux : Nat → List Nat → Str
  | _, [] => []
  | 0, _ => []
  | fuel + 1, b :: t =>
    match utf8Step b t with
    | none => utf8DecodeIgnoreAux fuel t
    | some p => p.1 :: utf8DecodeIgnoreAux fuel p.2


def utf8DecodeIgnore (l : List Nat) : Str := utf8DecodeIgnoreAux l.length l


/-- Universal newline translation performed by Python text-mode reads:
`\r\n` and lone `\r` both become `\n`. -/
def translateNewlines : Str → Str
  | '\r' :: '\n' :: t => '\n' :: translateNewlines t
  | '\r' :: t => '\n' :: translateNewlines t
  | c :: t => c :: translateNewlines t
  | [] => []


/-! ## SHA-256 (the `hashlib.sha256` digest used by the signing module) -/

def w32 (x : Nat) : Nat := x % 4294967296


def rotr (n x : Nat) : Nat := w32 ((x >>> n) ||| (x <<< (32 - n)))


def bsig0 (x : Nat) : Nat := (rotr 2 x) ^^^ (rotr 13 x) ^^^ (rotr 22 x)


def bsig1 (x : Nat) : Nat := (rotr 6 x) ^^^ (rotr 11 x) ^^^ (rotr 25 x)


def ssig0 (x : Nat) : Nat := (rotr 7 x) ^^^ (rotr 18 x) ^^^ (x >>> 3)


def ssig1 (x : Nat) : Nat := (rotr 17 x) ^^^ (rotr 19 x) ^^^ (x >>> 10)


def chf (x y z : Nat) : Nat := (x &&& y) ^^^ ((4294967295 ^^^ x) &&& z)


def majf (x y z : Nat) : Nat := (x &&& y) ^^^ (x &&& z) ^^^ (y &&& z)


def sha256K : List Nat :=
  [1116352408, 1899447441, 3049323471, 3921009573, 961987163, 1508970993,
   2453635748, 2870763221, 3624381080, 310598401, 607225278, 1426881987,
   1925078388, 2162078206, 2614888103, 3248222580, 3835390401, 4022224774,
   264347078, 604807628, 770255983, 1249150122, 1555081692, 1996064986,
   2554220882, 2821834349, 2952996808, 3210313671, 3336571891, 3584528711,
   113926993, 338241895, 666307205, 773529912, 1294757372, 1396182291,
   1695183700, 1986661051, 2177026350, 2456956037, 2730485921, 2820302411,
   3259730800, 3345764771, 3516065817, 3600352804, 4094571909, 275423344,
   430227734, 506948616, 659060556, 883997877, 958139571, 1322822218,
   1537002063, 1747873779, 1955562222, 2024104815, 2227730452, 2361852424,
   2428436474, 2756734187, 3204031479, 3329325298]


def sha256H0 : List Nat :=
  [1779033703, 3144134277, 1013904242, 2773480762,
   1359893119, 2600822924, 528734635, 1541459225]


/-- Big-endian byte expansion of `n` into `k` bytes. -/
def toBytesBE : Nat → Nat → List Nat
  | 0, _ => []
  | k + 1, n => toBytesBE k (n / 256) ++ [n % 256]


/-- SHA-256 padding: a `0x80` byte, zeros, then the bit length as a
64-bit big-endian integer, so the total length is a multiple of 64. -/
def padMessage (msg : List Nat) : List Nat :=
  let L := msg.length
  let k := (64 + 55 - L % 64) % 64
  msg ++ [128] ++ List.replicate k 0 ++ toBytesBE 8 (8 * L)


/-- 32-bit big-endian words of a block. -/
def toWords : List Nat → List Nat
  | a :: b :: c :: d :: t => (a * 16777216 + b * 65536 + c * 256 + d) :: toWords t
  | _ => []


/-- Extend the 16-word message schedule by `n` further words. -/
def extendSchedule : Nat → List Nat → List Nat
  | 0, w => w
  | n + 1, w =>
    let t := w.length
    let x := w32 (ssig1 (w.getD (t - 2) 0) + w.getD (t - 7) 0 +
      ssig0 (w.getD (t - 15) 0) + w.getD (t - 16) 0)
    extendSchedule n (w ++ [x])


/-- One round of the SHA-256 compression function. -/
def compressStep (st : List Nat) (kw : Nat × Nat) : List Nat :=
  match st with
  | [a, b, c, d, e, f, g, h] =>
    let t1 := w32 (h + bsig1 e + chf e f g + kw.1 + kw.2)
    let t2 := w32 (bsig0 a + majf a b c)
    [w32 (t1 + t2), a, b, c, w32 (d + t1), e, f, g]
  | _ => st


/-- Process one 64-byte block. -/
def processBlock (hs : List Nat) (block : List Nat) : List Nat :=
  let w := extendSchedule 48 (toWords block)
  let final := (sha256K.zip w).foldl compressStep hs
  List.zipWith (fun h v => w32 (h + v)) hs final


/-- Fold the compression function over all 64-byte blocks.  The fuel is
the byte count; every step consumes 64 bytes, so it never runs out. -/
def sha256Blocks : Nat → List Nat → List Nat → List Nat
  | _, hs, [] => hs
  | 0, hs, _ => hs
  | fuel + 1, hs, l => sha256Blocks fuel (processBlock hs (l.take 64)) (l.drop 64)


/-- SHA-256 digest (32 bytes) of a byte string. -/
def sha256 (msg : List Nat) : List Nat :=
  ((sha256Blocks (padMessage msg).length sha256H0 (padMessage msg)).map (toBytesBE 4)).flatten


/-- Upper-case hexadecimal digit. -/
def hexUpperDigit (n : Nat) : Char :=
  if n < 10 then Char.ofNat (48 + n) else Char.ofNat (55 + n)


/-- Upper-case hexadecimal rendering of a byte string
(`hexdigest().upper()`). -/
def hexUpper (bytes : List Nat) : Str :=
  (bytes.map (fun b => [hexUpperDigit (b / 16), hexUpperDigit (b % 16)])).flatten


/-! ## The signing module (`sn_signing.py`)

File contents are byte strings (`List Nat`).  Binary reads are modelled
directly; text-mode reads (`sign_file`, `unsign_file`, `has_close_marker`)
are modelled as UTF-8 decoding followed by universal newline translation,
exactly the transformation Python applies. -/

/-- The UTF-8 byte order mark `EF BB BF`. -/
def bomBytes : List Nat := [239, 187, 191]


/-- Remove a leading UTF-8 BOM if present. -/
def stripBOM (c : List Nat) : List Nat :=
  if bomBytes.isPrefixOf c then c.drop 3 else c


/-- `content.replace(b'\r\n', b'\n')`: left-to-right, non-overlapping
replacement of every CRLF pair by LF. -/
def replaceCRLF : List Nat → List Nat
  | 13 :: 10 :: t => 10 :: replaceCRLF t
  | b :: t => b :: replaceCRLF t
  | [] => []


/-- `.replace(b'\r', b'\n')`: for a single-byte pattern this is a map. -/
def replaceCR (c : List Nat) : List Nat := c.map (fun b => if b = 13 then 10 else b)


/-- The two sequential replacements performed by the source:
`content.replace(b'\r\n', b'\n').replace(b'\r', b'\n')`. -/
def normalizeBytes (c : List Nat) : List Nat := replaceCR (replaceCRLF c)


/-- The bytes of `b'sign:'`. -/
def signBytes : List Nat := [115, 105, 103, 110, 58]


/-- `line.lstrip().lower().startswith(b'sign:')`, the test used by
`canonical_bytes` to locate the signature line. -/
def isSignLineB (l : List Nat) : Bool := signBytes.isPrefixOf ((bLstrip l).map bLower)


/-- `line.strip().lower().startswith(b'sign:')`, the test used by
`extract_signature`. -/
def isSignLineStripB (l : List Nat) : Bool := signBytes.isPrefixOf ((bStrip l).map bLower)


/-- The `for i, line in enumerate(lines)` loop of `canonical_bytes`:
`some pre` is `lines[:i]` for the first index `i` whose line passes the
`sign:` test, `none` means no line passed. -/
def linesBeforeSign : List (List Nat) → Option (List (List Nat))
  | [] => none
  | l :: t =>
    if isSignLineB l then some []
    else (linesBeforeSign t).map (fun pre => l :: pre)


/-- `canonical_bytes` (sn_signing.py): strip a leading BOM, normalize line
endings, split on LF, and cut at the first `sign:` line. -/
def canonical_bytes (content : List Nat) : List Nat :=
  let c := normalizeBytes (stripBOM content)
  let lines := splitSep 10 c
  match linesBeforeSign lines with
  | some pre => joinSep 10 pre
  | none => c


/-- Characters after the first occurrence of `sep` (`s.split(sep, 1)[1]`). -/
def afterFirst (sep : Char) (s : Str) : Str := (s.dropWhile (fun c => c ≠ sep)).drop 1


/-- First `some` result of `f` over a list (a `for` loop returning on the
first hit). -/
def firstSome {α β : Type} (f : α → Option β) : List α → Option β
  | [] => none
  | a :: t =>
    match f a with
    | some b => some b
    | none => firstSome f t


/-- The loop body of `extract_signature`: on a line whose stripped,
lower-cased form starts with `sign:`, decode it (`errors='ignore'`) and
return the trimmed text after the first colon; otherwise keep looking. -/
def extract_entry (line : List Nat) : Option Str :=
  let stripped := bStrip line
  if signBytes.isPrefixOf (stripped.map bLower) then
    let sigLine := utf8DecodeIgnore stripped
    if sigLine.contains ':' then some (pyStrip (afterFirst ':' sigLine))
    else none
  else none


/-- `extract_signature` (sn_signing.py): scan the normalized lines for the
first stripped line starting with `sign:` and return the trimmed text
after the first colon. -/
def extract_signature (content : List Nat) : Option Str :=
  let c := normalizeBytes (stripBOM content)
  let lines := splitSep 10 c
  firstSome extract_entry lines


/-- `has_close_marker` (sn_signing.py): text-mode read with
`errors='ignore'` (no BOM stripping), line-by-line scan for a line whose
stripped, lower-cased content equals `close:`. -/
def has_close_marker (content : List Nat) : Bool :=
  let text := translateNewlines (utf8DecodeIgnore content)
  (splitSep '\n' text).any (fun l => pyLower (pyStrip l) == "close:".toList)


/-- `compute_signature` (sn_signing.py). -/
def compute_signature (content : List Nat) : Str :=
  "SHA256-".toList ++ hexUpper (sha256 (canonical_bytes content))


def checkMark : Char := Char.ofNat 0x2713


def crossMark : Char := Char.ofNat 0x2717


/-- `verify_signature` (sn_signing.py): returns `(is_valid, message)`. -/
def verify_signature (content : List Nat) : Bool × Str :=
  match extract_signature content with
  | none => (false, "No signature found in file".toList)
  | some existing =>
    let expected := compute_signature content
    if existing = expected then
      if has_close_marker content then
        (true, checkMark :: " Signature valid and document is sealed: ".toList ++ expected)
      else
        (true, checkMark ::
          " Signature valid (but document not sealed - missing close:): ".toList ++ expected)
    else
      (false, crossMark :: " Signature mismatch!\nExpected: ".toList ++ expected ++
        "\nFound:    ".toList ++ existing)


/-- The filter used by `sign_file` and `unsign_file`:
`stripped.startswith('sign:') or stripped == 'close:'` on
`line.strip().lower()`. -/
def isSignOrClose (l : Str) : Bool :=
  let stripped := pyLower (pyStrip l)
  "sign:".toList.isPrefixOf stripped || stripped == "close:".toList


/-- Pop trailing lines whose stripped content is empty. -/
def trimTrailingBlanks (lines : List Str) : List Str :=
  (lines.reverse.dropWhile (fun l => pyStrip l == ([] : Str))).reverse


/-- `sign_file(path, in_place=True)` (sn_signing.py): the returned
signature is computed from the original bytes; the file is rewritten by
dropping existing sign/close lines, trimming trailing blank lines and
appending a blank line, the signature line and the seal line.  `none`
models a `UnicodeDecodeError` on the text-mode read. -/
def sign_file (content : List Nat) : Option (Str × List Nat) :=
  let signature := compute_signature content
  match utf8DecodeStrict content with
  | none => none
  | some text =>
    let text := translateNewlines text
    let lines := splitSep '\n' text
    let filtered := lines.filter (fun l => !(isSignOrClose l))
    let filtered := trimTrailingBlanks filtered
    let outLines := filtered ++ [([] : Str), "sign: ".toList ++ signature, "close:".toList]
    some (signature, utf8Encode (joinSep '\n' outLines))


/-- `unsign_file` (sn_signing.py): returns whether a sign/close line was
found, together with the resulting file contents (unchanged when nothing
was found, since the source only rewrites in that case). -/
def unsign_file (content : List Nat) : Option (Bool × List Nat) :=
  match utf8DecodeStrict content with
  | none => none
  | some text =>
    let text := translateNewlines text
    let lines := splitSep '\n' text
    let filtered := lines.filter (fun l => !(isSignOrClose l))
    let found := lines.any isSignOrClose
    if found then some (true, utf8Encode (joinSep '\n' (trimTrailingBlanks filtered)))
    else some (false, content)


/-! ## The parser (`sn_parser.py`)

AST nodes are a closed sum type, one variant per `ASTNode` subclass that
can occur in `Document.nodes`; `MetaNode` contents live in
`Document.metadata` as in the source. -/

inductive Node where
  | title (text : Str)
  | secDef (sectionId : Str)
  | secLink (sectionId : Str) (text : Str)
  | para (text : Str)
  | breakLine
  | list (listType : Str) (items : List Str)
  | codeBlock (code : Str)
  | image (path : Str) (altText : Str)
  | link (url : Str)
  | linkText (text : Str) (url : Str)
  | openSN (location : Str) (text : Str)
  | endNewSN (filepath : Str)
  | signature (sig : Str)
  | close
  | unknown (rawText : Str)
deriving DecidableEq, Repr


structure Document where
  version : Str := "v1".toList
  metadata : List Str := []
  nodes : List Node := []
  is_closed : Bool := false
  signature : Option Str := none
deriving DecidableEq, Repr


inductive ParseMode where
  | lenient
  | strict
deriving DecidableEq, Repr


/-- `SNTokenizer.is_comment`. -/
def is_comment (line : Str) : Bool := "#".toList.isPrefixOf (pyLstrip line)


/-- `SNTokenizer.is_blank`. -/
def is_blank (line : Str) : Bool := pyStrip line == ([] : Str)


/-- `SNParser._parse_header`: skip blank/comment lines; the first
substantive line must be exactly `<super-notation-v1>` after stripping.
Returns the remaining lines, or `none` for a missing header. -/
def parse_header : List Str → Option (List Str)
  | [] => none
  | line :: rest =>
    if is_blank line || is_comment line then parse_header rest
    else if pyStrip line = "<super-notation-v1>".toList then some rest
    else none


/-- `SNParser._parse_metadata`: collect `meta:` entries, skipping
blank/comment lines; the first other line is left unconsumed. -/
def parse_metadata : List Str → List Str × List Str
  | [] => ([], [])
  | line :: rest =>
    if is_blank line || is_comment line then parse_metadata rest
    else
      let stripped := pyStrip line
      if "meta:".toList.isPrefixOf (pyLower stripped) then
        let p := parse_metadata rest
        (pyStrip (stripped.drop 5) :: p.1, p.2)
      else ([], line :: rest)


/-- The command prefix table of `SNParser._looks_like_command`. -/
def commandPrefixes : List Str :=
  ["title:".toList, "sec:".toList, "sec=".toList, "para:".toList, "break-line".toList,
   "olist:".toList, "code:".toList, "img:=".toList, "link:".toList, "linktxt:".toList,
   "opensn=".toList, "endnewsn:".toList, "sign:".toList, "close:".toList, "meta:".toList]


/-- `SNParser._looks_like_command`. -/
def looks_like_command (line : Str) : Bool :=
  let stripped := pyLower (pyStrip line)
  commandPrefixes.any (fun c => c.isPrefixOf stripped)


/-- The item-collection loop of `SNParser._parse_list`: stop (without
consuming) at a blank line or a command line, skip comment lines, append
every other line trimmed. -/
def parse_list_items : List Str → List Str × List Str
  | [] => ([], [])
  | line :: rest =>
    if is_blank line then ([], line :: rest)
    else if is_comment line then parse_list_items rest
    else if looks_like_command line then ([], line :: rest)
    else
      let p := parse_list_items rest
      (pyStrip line :: p.1, p.2)


/-- `re.match(r'olist:(bullet|numbers)', first_line, re.IGNORECASE)`:
`re.match` anchors only at the start, so this is a prefix test; the
returned value is `match.group(1).lower()`. -/
def olistRe (s : Str) : Option Str :=
  if "olist:bullet".toList.isPrefixOf (pyLower s) then some ("bullet".toList)
  else if "olist:numbers".toList.isPrefixOf (pyLower s) then some ("numbers".toList)
  else none


/-- `SNParser._parse_list` applied to the stripped first line; the error
is the `Invalid list type` `ValueError`. -/
def parse_list (firstLine : Str) (rest : List Str) : Except Str (Node × List Str) :=
  match olistRe firstLine with
  | none => .error ("Invalid list type: ".toList ++ firstLine)
  | some ty =>
    let p := parse_list_items rest
    .ok (.list ty p.1, p.2)


/-- The line-collection loop of `SNParser._parse_code_block`: capture
lines verbatim until a line whose trimmed lower-cased content is exactly
`endcode:` (consumed, not captured); at end of input the block closes
silently. -/
def parse_code_lines : List Str → List Str × List Str
  | [] => ([], [])
  | line :: rest =>
    if pyLower (pyStrip line) = "endcode:".toList then ([], rest)
    else
      let p := parse_code_lines rest
      (line :: p.1, p.2)


/-- `SNParser._parse_code_block` (after the `code:` line was consumed). -/
def parse_code_block (rest : List Str) : Node × List Str :=
  let p := parse_code_lines rest
  (.codeBlock (joinSep '\n' p.1), p.2)


/-- `(before, after)` parts around the first occurrence of `sep`
(`content.split(sep, 1)`). -/
def splitFirst (sep : Char) (s : Str) : Str × Str :=
  (s.takeWhile (fun c => c ≠ sep), (s.dropWhile (fun c => c ≠ sep)).drop 1)


/-- `SNParser._parse_image`. -/
def parse_image (content : Str) : Node :=
  if content.contains '|' then
    let p := splitFirst '|' content
    .image (pyStrip p.1) (pyStrip p.2)
  else .image (pyStrip content) []


/-- `SNParser._parse_link_text`. -/
def parse_link_text (content : Str) : Node :=
  if content.contains '|' then
    let p := splitFirst '|' content
    .linkText (pyStrip p.1) (pyStrip p.2)
  else if content.contains ':' then
    let p := splitFirst ':' content
    .linkText (pyStrip p.1) (pyStrip p.2)
  else .linkText content content


/-- `re.match(keyword + r'([^:]+):\s*(.*)', s, re.IGNORECASE)` for the
`sec=` and `opensn=` rules (`keyword` is given lower-case).  `([^:]+)`
greedily takes the non-colon run after the keyword, which must be
non-empty and followed by `:`; then `\s*` skips whitespace and `(.*)`
captures up to the end of the line (`.` does not cross a newline).  The
groups are returned raw; `.strip()` is applied by the caller. -/
def reGroupsAfterEq (keyword : Str) (s : Str) : Option (Str × Str) :=
  if keyword.isPrefixOf (pyLower s) then
    let rest := s.drop keyword.length
    let g1 := rest.takeWhile (fun c => c ≠ ':')
    if g1 = [] then none
    else
      match rest.drop g1.length with
      | ':' :: r2 => some (g1, (r2.dropWhile pyWs).takeWhile (fun c => c ≠ '\n'))
      | _ => none
  else none


/-- `SNParser._parse_node`, acting on the current line and the remaining
lines.  Every branch consumes the current line; the result pairs the
produced node (if any) with the lines left over.

When a `sec=` or `opensn=` line fails its regex, the source's `if` chain
falls through: none of the later prefix tests can match such a line, so
control reaches the unknown-command case with the line already consumed —
in lenient mode the `consume_line()` there swallows one further line. -/
def parse_node (mode : ParseMode) (line : Str) (rest : List Str) :
    Except Str (Option Node × List Str) :=
  if is_blank line || is_comment line then .ok (none, rest)
  else if "title:".toList.isPrefixOf (pyLower (pyStrip line)) then
    .ok (some (.title (pyStrip ((pyStrip line).drop 6))), rest)
  else if "sec:".toList.isPrefixOf (pyLower (pyStrip line)) &&
      !(((pyStrip line).take 4).contains '=') then
    .ok (some (.secDef (pyStrip ((pyStrip line).drop 4))), rest)
  else if "sec=".toList.isPrefixOf (pyLower (pyStrip line)) then
    match reGroupsAfterEq ("sec=".toList) (pyStrip line) with
    | some g => .ok (some (.secLink (pyStrip g.1) (pyStrip g.2)), rest)
    | none =>
      match mode with
      | .strict => .error ("Unknown command in strict mode: ".toList ++ line)
      | .lenient => .ok (some (.unknown line), rest.drop 1)
  else if "para:".toList.isPrefixOf (pyLower (pyStrip line)) then
    .ok (some (.para (pyStrip ((pyStrip line).drop 5))), rest)
  else if pyLower (pyStrip line) = "break-line".toList ∨
      pyLower (pyStrip line) = "break-line:".toList then
    .ok (some .breakLine, rest)
  else if "olist:".toList.isPrefixOf (pyLower (pyStrip line)) then
    (parse_list (pyStrip line) rest).map (fun p => (some p.1, p.2))
  else if pyLower (pyStrip line) = "code:".toList then
    .ok (some (parse_code_block rest).1, (parse_code_block rest).2)
  else if "img:=".toList.isPrefixOf (pyLower (pyStrip line)) then
    .ok (some (parse_image ((pyStrip line).drop 5)), rest)
  else if "link:".toList.isPrefixOf (pyLower (pyStrip line)) then
    .ok (some (.link (pyStrip ((pyStrip line).drop 5))), rest)
  else if "linktxt:".toList.isPrefixOf (pyLower (pyStrip line)) then
    .ok (some (parse_link_text ((pyStrip line).drop 8)), rest)
  else if "opensn=".toList.isPrefixOf (pyLower (pyStrip line)) then
    match reGroupsAfterEq ("opensn=".toList) (pyStrip line) with
    | some g => .ok (some (.openSN (pyStrip g.1) (pyStrip g.2)), rest)
    | none =>
      match mode with
      | .strict => .error ("Unknown command in strict mode: ".toList ++ line)
      | .lenient => .ok (some (.unknown line), rest.drop 1)
  else if "endnewsn:".toList.isPrefixOf (pyLower (pyStrip line)) then
    .ok (some (.endNewSN (pyStrip ((pyStrip line).drop 9))), rest)
  else if "sign:".toList.isPrefixOf (pyLower (pyStrip line)) then
    .ok (some (.signature (pyStrip ((pyStrip line).drop 5))), rest)
  else if pyLower (pyStrip line) = "close:".toList then
    .ok (some .close, rest)
  else
    match mode with
    | .strict => .error ("Unknown command in strict mode: ".toList ++ line)
    | .lenient => .ok (some (.unknown line), rest)


/-- The body loop of `SNParser.parse`: parse nodes until the input is
exhausted; in strict mode, stop right after an `endnewsn:` node.  The
fuel is the number of lines; by `parse_node_rest_length` each step
consumes at least one line, so the fuel never runs out. -/
def parse_body_aux (mode : ParseMode) : Nat → List Str → Except Str (List Node)
  | _, [] => .ok []
  | 0, _ => .ok []
  | fuel + 1, line :: rest =>
    match parse_node mode line rest with
    | .error e => .error e
    | .ok (none, rest2) => parse_body_aux mode fuel rest2
    | .ok (some n, rest2) =>
      match mode, n with
      | .strict, .endNewSN fp => .ok [.endNewSN fp]
      | _, _ => (parse_body_aux mode fuel rest2).map (fun ns => n :: ns)


def parse_body (mode : ParseMode) (lines : List Str) : Except Str (List Node) :=
  parse_body_aux mode lines.length lines


/-- The per-node `Document` update performed as `SNParser.parse` appends
nodes: a signature node overwrites the signature, a close node sets the
sealed flag. -/
def sigCloseFold (acc : Option Str × Bool) (n : Node) : Option Str × Bool :=
  match n with
  | .signature s => (some s, acc.2)
  | .close => (acc.1, true)
  | _ => acc


/-- `SNParser.parse`: split on `\n`, parse the header, the metadata
section and the body; the signature/sealed fields are accumulated from
the node list exactly as the source's loop does. -/
def parse (mode : ParseMode) (content : Str) : Except Str Document :=
  let lines := splitSep '\n' content
  match parse_header lines with
  | none => .error ("Missing or invalid <super-notation-v1> header".toList)
  | some r1 =>
    let p := parse_metadata r1
    match parse_body mode p.2 with
    | .error e => .error e
    | .ok nodes =>
      let acc := nodes.foldl sigCloseFold (none, false)
      .ok { metadata := p.1, nodes := nodes, is_closed := acc.2, signature := acc.1 }



/-! ## The HTML renderer (`sn_parser.py`, class `HTMLRenderer`)

The renderer appends output fragments to a buffer and joins them with
newlines; it is modelled as the list of appended fragments
(`render_lines`) joined by `joinSep`. -/

/-- `html.escape(s)` (with the default `quote=True`).  The source applies
five sequential `str.replace` passes; since no replacement string
contains a character replaced by a later pass that has not already run,
the result is this per-character expansion. -/
def htmlEscapeChar (c : Char) : Str :=
  if c = '&' then "&amp;".toList
  else if c = '<' then "&lt;".toList
  else if c = '>' then "&gt;".toList
  else if c = '"' then "&quot;".toList
  else if c = Char.ofNat 39 then "&#x27;".toList
  else [c]


def htmlEscape (s : Str) : Str := (s.map htmlEscapeChar).flatten


def lbrace : Char := Char.ofNat 123


def rbrace : Char := Char.ofNat 125


/-- `str.replace(pat, rep)`: left-to-right, non-overlapping replacement
(the patterns used here are all non-empty).  The fuel is the length of
the string; every step consumes at least one character. -/
def replaceSeqAux (pat rep : Str) : Nat → Str → Str
  | _, [] => []
  | 0, s => s
  | fuel + 1, c :: t =>
    if 0 < pat.length ∧ pat.isPrefixOf (c :: t) then
      rep ++ replaceSeqAux pat rep fuel ((c :: t).drop pat.length)
    else c :: replaceSeqAux pat rep fuel t


def replaceSeq (pat rep : Str) (s : Str) : Str := replaceSeqAux pat rep s.length s


/-- Scan for the first `\x7d` (the lazy `(.*?)\x7d` tail of the inline
patterns); `.` does not match a newline, so the scan fails across one.
Returns the text before the brace and the remainder after it. -/
def findClose : Str → Option (Str × Str)
  | [] => none
  | c :: t =>
    if c = '\n' then none
    else if c = rbrace then some ([], t)
    else
      match findClose t with
      | some p => some (c :: p.1, p.2)
      | none => none


/-- `re.sub` for the patterns `\x7bb:(.*?)\x7d`, `\x7bbold:(.*?)\x7d`,
`\x7bi:(.*?)\x7d`, `\x7bitalic:(.*?)\x7d` and `\x7bu:(.*?)\x7d` with
`re.IGNORECASE`: at each position, if the literal pattern head matches
case-insensitively and a closing brace follows, the span is replaced by
`pre ++ inner ++ post` and scanning resumes after the match; otherwise
scanning advances one character.  Replacement text is never rescanned. -/
def subTagAux (pat pre post : Str) : Nat → Str → Str
  | _, [] => []
  | 0, s => s
  | fuel + 1, c :: t =>
    if pyLower ((c :: t).take pat.length) = pat then
      match findClose ((c :: t).drop pat.length) with
      | some p => pre ++ p.1 ++ post ++ subTagAux pat pre post fuel p.2
      | none => c :: subTagAux pat pre post fuel t
    else c :: subTagAux pat pre post fuel t


def subTag (pat pre post : Str) (s : Str) : Str := subTagAux pat pre post s.length s

/-- `re.sub(r'\x7bcolor=([^:]+):(.*?)\x7d', ..., re.IGNORECASE)`: after the
literal head, `([^:]+)` greedily takes the non-empty run of non-colon
characters (which must be followed by `:`), then the lazy `(.*?)` runs to
the first closing brace.  The replacement escapes the colour token but
inserts the inner text unchanged. -/
def subColorAux : Nat → Str → Str
  | _, [] => []
  | 0, s => s
  | fuel + 1, c :: t =>
    if pyLower ((c :: t).take 7) = lbrace :: "color=".toList then
      match ((c :: t).drop 7).takeWhile (fun x => x ≠ ':') with
      | [] => c :: subColorAux fuel t
      | g1h :: g1t =>
        match ((c :: t).drop 7).drop (g1h :: g1t).length with
        | ':' :: r2 =>
          match findClose r2 with
          | some p =>
            "<span style=\"color: ".toList ++ htmlEscape (g1h :: g1t) ++ "\">".toList ++
              p.1 ++ "</span>".toList ++ subColorAux fuel p.2
          | none => c :: subColorAux fuel t
        | _ => c :: subColorAux fuel t
    else c :: subColorAux fuel t


def subColor (s : Str) : Str := subColorAux s.length s


def placeholderL : Str := "\x00LEFTBRACE\x00".toList


def placeholderR : Str := "\x00RIGHTBRACE\x00".toList


/-- `HTMLRenderer._format_inline`: escape, protect doubled braces, apply
the bold/italic/underline/colour substitutions, restore the braces. -/
def format_inline (text : Str) : Str :=
  let r := htmlEscape text
  let r := replaceSeq [lbrace, lbrace] placeholderL r
  let r := replaceSeq [rbrace, rbrace] placeholderR r
  let r := subTag (lbrace :: "b:".toList) "<strong>".toList "</strong>".toList r
  let r := subTag (lbrace :: "bold:".toList) "<strong>".toList "</strong>".toList r
  let r := subTag (lbrace :: "i:".toList) "<em>".toList "</em>".toList r
  let r := subTag (lbrace :: "italic:".toList) "<em>".toList "</em>".toList r
  let r := subTag (lbrace :: "u:".toList) "<u>".toList "</u>".toList r
  let r := subColor r
  let r := replaceSeq placeholderL [lbrace] r
  let r := replaceSeq placeholderR [rbrace] r
  r


/-- The four characters stored in the source for the seal banner icon
(the file contains mojibake: U+00F0, U+0178, U+201D, U+2019). -/
def sealIcon : Str := [Char.ofNat 0xF0, Char.ofNat 0x178, Char.ofNat 0x201D, Char.ofNat 0x2019]


/-- The three characters stored in the source for the `endnewsn:` arrow
(mojibake: U+00E2, U+2020, U+2019). -/
def nextArrow : Str := [Char.ofNat 0xE2, Char.ofNat 0x2020, Char.ofNat 0x2019]


/-- The sealed banner fragment appended for a closed, signed document. -/
def sealBanner : Str :=
  "<div class=\"sn-seal\">".toList ++ sealIcon ++ " Document sealed and signed</div>".toList


/-- `HTMLRenderer._render_node`: the fragments appended to the output
buffer for one node.  `SignatureNode` and `CloseNode` match no branch of
the source's `isinstance` chain, so they append nothing. -/
def render_node (node : Node) : List Str :=
  match node with
  | .title t =>
    ["<h1 class=\"sn-title\">".toList ++ format_inline t ++ "</h1>".toList]
  | .secDef sid =>
    ["<h2 id=\"".toList ++ htmlEscape sid ++ "\" class=\"sn-section\">".toList ++
      htmlEscape sid ++ "</h2>".toList]
  | .secLink sid t =>
    ["<p><a href=\"#".toList ++ htmlEscape sid ++ "\">".toList ++ format_inline t ++
      "</a></p>".toList]
  | .para t =>
    ["<p class=\"sn-para\">".toList ++ format_inline t ++ "</p>".toList]
  | .breakLine => ["<hr class=\"sn-break\">".toList]
  | .list ty items =>
    let tag := if ty = "numbers".toList then "ol".toList else "ul".toList
    ("<".toList ++ tag ++ " class=\"sn-list\">".toList) ::
      items.map (fun it => "    <li>".toList ++ format_inline it ++ "</li>".toList) ++
      [("</".toList ++ tag ++ ">".toList)]
  | .codeBlock code =>
    ["<pre class=\"sn-code\"><code>".toList, htmlEscape code, "</code></pre>".toList]
  | .image p alt =>
    ["<img src=\"".toList ++ htmlEscape p ++ "\" alt=\"".toList ++
      (if alt ≠ [] then htmlEscape alt else []) ++ "\" class=\"sn-image\">".toList]
  | .link url =>
    ["<p><a href=\"".toList ++ htmlEscape url ++ "\" class=\"sn-link\">".toList ++
      htmlEscape url ++ "</a></p>".toList]
  | .linkText t url =>
    ["<p><a href=\"".toList ++ htmlEscape url ++ "\" class=\"sn-link\">".toList ++
      format_inline t ++ "</a></p>".toList]
  | .openSN loc t =>
    ["<p><a href=\"".toList ++ htmlEscape loc ++ "\" class=\"sn-opensn\">".toList ++
      format_inline t ++ "</a></p>".toList]
  | .endNewSN fp =>
    ["<div class=\"sn-next\"><a href=\"".toList ++ htmlEscape fp ++ "\">Next: ".toList ++
      htmlEscape fp ++ (' ' :: nextArrow) ++ "</a></div>".toList]
  | .signature _ => []
  | .close => []
  | .unknown raw =>
    ["<p class=\"sn-unknown\">".toList ++ htmlEscape raw ++ "</p>".toList]


/-- `HTMLRenderer._extract_title` on a node list: the first `TitleNode`
text, or the fallback. -/
def extract_title_nodes : List Node → Str
  | [] => "Untitled Document".toList
  | .title t :: _ => t
  | _ :: rest => extract_title_nodes rest


def extract_title (doc : Document) : Str := extract_title_nodes doc.nodes


/-- Python truthiness of `doc.signature` (`None` and the empty string are
falsy). -/
def sigTruthy : Option Str → Bool
  | none => false
  | some s => !(s == ([] : Str))


def defaultCss : Str :=
  String.toList (
    "\n" ++
    "        body \x7b\n" ++
    "            font-family: -apple-system, BlinkMacSystemFont, \x27Segoe UI\x27, Roboto, Oxygen, Ubuntu, Cantarell, sans-serif;\n" ++
    "            line-height: 1.6;\n" ++
    "            max-width: 800px;\n" ++
    "            margin: 0 auto;\n" ++
    "            padding: 20px;\n" ++
    "            color: #333;\n" ++
    "        \x7d\n" ++
    "        .sn-document \x7b\n" ++
    "            background: #fff;\n" ++
    "        \x7d\n" ++
    "        .sn-title \x7b\n" ++
    "            color: #2c3e50;\n" ++
    "            border-bottom: 3px solid #3498db;\n" ++
    "            padding-bottom: 10px;\n" ++
    "        \x7d\n" ++
    "        .sn-section \x7b\n" ++
    "            color: #34495e;\n" ++
    "            margin-top: 2em;\n" ++
    "            margin-bottom: 1em;\n" ++
    "            border-bottom: 1px solid #ecf0f1;\n" ++
    "            padding-bottom: 5px;\n" ++
    "        \x7d\n" ++
    "        .sn-para \x7b\n" ++
    "            margin: 1em 0;\n" ++
    "            text-align: justify;\n" ++
    "        \x7d\n" ++
    "        .sn-break \x7b\n" ++
    "            margin: 2em 0;\n" ++
    "            border: none;\n" ++
    "            border-top: 2px solid #bdc3c7;\n" ++
    "        \x7d\n" ++
    "        .sn-list \x7b\n" ++
    "            margin: 1em 0;\n" ++
    "            padding-left: 2em;\n" ++
    "        \x7d\n" ++
    "        .sn-list li \x7b\n" ++
    "            margin: 0.5em 0;\n" ++
    "        \x7d\n" ++
    "        .sn-code \x7b\n" ++
    "            background: #2c3e50;\n" ++
    "            color: #ecf0f1;\n" ++
    "            padding: 15px;\n" ++
    "            border-radius: 5px;\n" ++
    "            overflow-x: auto;\n" ++
    "            font-family: \x27Courier New\x27, Courier, monospace;\n" ++
    "            font-size: 14px;\n" ++
    "        \x7d\n" ++
    "        .sn-code code \x7b\n" ++
    "            background: none;\n" ++
    "            color: inherit;\n" ++
    "        \x7d\n" ++
    "        .sn-image \x7b\n" ++
    "            max-width: 100%;\n" ++
    "            height: auto;\n" ++
    "            display: block;\n" ++
    "            margin: 1em 0;\n" ++
    "            border-radius: 5px;\n" ++
    "            box-shadow: 0 2px 8px rgba(0,0,0,0.1);\n" ++
    "        \x7d\n" ++
    "        .sn-link, .sn-opensn \x7b\n" ++
    "            color: #3498db;\n" ++
    "            text-decoration: none;\n" ++
    "        \x7d\n" ++
    "        .sn-link:hover, .sn-opensn:hover \x7b\n" ++
    "            text-decoration: underline;\n" ++
    "        \x7d\n" ++
    "        .sn-next \x7b\n" ++
    "            margin-top: 3em;\n" ++
    "            padding: 15px;\n" ++
    "            background: #ecf0f1;\n" ++
    "            border-left: 4px solid #3498db;\n" ++
    "            border-radius: 3px;\n" ++
    "        \x7d\n" ++
    "        .sn-next a \x7b\n" ++
    "            color: #2c3e50;\n" ++
    "            text-decoration: none;\n" ++
    "            font-weight: bold;\n" ++
    "        \x7d\n" ++
    "        .sn-seal \x7b\n" ++
    "            margin-top: 3em;\n" ++
    "            padding: 15px;\n" ++
    "            background: #d5f4e6;\n" ++
    "            border: 2px solid #27ae60;\n" ++
    "            border-radius: 5px;\n" ++
    "            text-align: center;\n" ++
    "            color: #27ae60;\n" ++
    "            font-weight: bold;\n" ++
    "        \x7d\n" ++
    "        .sn-unknown \x7b\n" ++
    "            background: #fff3cd;\n" ++
    "            border-left: 4px solid #ffc107;\n" ++
    "            padding: 10px;\n" ++
    "            margin: 1em 0;\n" ++
    "            font-family: monospace;\n" ++
    "        \x7d\n" ++
    "        ")


/-- `HTMLRenderer.render`: the full list of output fragments — the HTML
shell with the escaped title and embedded stylesheet, the per-node
fragments, the sealed banner when the document is closed and carries a
truthy signature, and the closing tags. -/
def render_lines (doc : Document) : List Str :=
  ["<!DOCTYPE html>".toList,
   "<html lang=\"en\">".toList,
   "<head>".toList,
   "    <meta charset=\"UTF-8\">".toList,
   "    <meta name=\"viewport\" content=\"width=device-width, initial-scale=1.0\">".toList,
   "    <title>".toList ++ htmlEscape (extract_title doc) ++ "</title>".toList,
   "    <style>".toList,
   defaultCss,
   "    </style>".toList,
   "</head>".toList,
   "<body>".toList,
   "<div class=\"sn-document\">".toList] ++
  (doc.nodes.map render_node).flatten ++
  (if doc.is_closed && sigTruthy doc.signature then [sealBanner] else []) ++
  ["</div>".toList, "</body>".toList, "</html>".toList]


/-- `HTMLRenderer.render`: the output buffer joined with newlines. -/
def render (doc : Document) : Str := joinSep '\n' (render_lines doc)


/-! ## Claim C4: the canonicalization algorithm as the specification words it -/

/-- One-pass newline normalization as the claim words it: every CRLF and
every lone CR becomes LF. -/
def normalizeOnePass : List Nat → List Nat
  | 13 :: 10 :: t => 10 :: normalizeOnePass t
  | 13 :: t => 10 :: normalizeOnePass t
  | b :: t => b :: normalizeOnePass t
  | [] => []


/-- Canonicalization as described by claim C4: strip a leading BOM,
normalize CRLF and lone CR to LF, split on LF; if some line, after
stripping leading whitespace and case-folding, begins with `sign:`,
return all lines strictly before the first such line rejoined with LF,
otherwise the entire normalized content. -/
def canonicalSpecC4 (content : List Nat) : List Nat :=
  let c := normalizeOnePass (stripBOM content)
  let lines := splitSep 10 c
  if lines.any isSignLineB then
    joinSep 10 (lines.takeWhile (fun l => !(isSignLineB l)))
  else c


instance exceptDecEq {ε α : Type} [DecidableEq ε] [DecidableEq α] : DecidableEq (Except ε α)
  | .error a, .error b =>
    if h : a = b then .isTrue (by rw [h]) else .isFalse (by simp [h])
  | .error _, .ok _ => .isFalse (by simp)
  | .ok _, .error _ => .isFalse (by simp)
  | .ok a, .ok b =>
    if h : a = b then .isTrue (by rw [h]) else .isFalse (by simp [h])


/-! ## Claim C8: document flags from the node sequence -/

/-- Recognizer for the seal-marker node. -/
def isCloseNode : Node → Bool
  | .close => true
  | _ => false


/-- The value of the last `signature` node of a list, if any (the
claim's "last-seen signature-node value"). -/
def lastSig : List Node → Option Str
  | [] => none
  | n :: rest =>
    match lastSig rest with
    | some s => some s
    | none =>
      match n with
      | .signature s => some s
      | _ => none


/-- The document produced by parsing a small signed and sealed file,
used to witness the C8 invariants. -/
def c8doc : Document :=
  { metadata := [], nodes := [Node.para ("a".toList), Node.signature ("ABC".toList), Node.close],
    is_closed := true, signature := some ("ABC".toList) }


/-! ## Claim C9: the rendered title element -/

/-- The text carried by a `title` node. -/
def titleText : Node → Option Str
  | .title t => some t
  | _ => none



theorem parse_list_items_length (l : List Str) :
    (parse_list_items l).2.length ≤ l.length := by
  induction l with
  | nil => simp [parse_list_items]
  | cons line rest ih =>
    simp only [parse_list_items]
    split
    · simp
    · split
      · exact le_trans ih (by simp)
      · split
        · simp
        · simpa using le_trans ih (by simp)


theorem parse_code_lines_length (l : List Str) :
    (parse_code_lines l).2.length ≤ l.length := by
  induction l with
  | nil => simp [parse_code_lines]
  | cons line rest ih =>
    simp only [parse_code_lines]
    split
    · simp
    · simpa using le_trans ih (by simp)


set_option maxHeartbeats 1000000 in
theorem parse_node_rest_length {mode : ParseMode} {line : Str} {rest : List Str}
    {n : Option Node} {rest2 : List Str}
    (h : parse_node mode line rest = .ok (n, rest2)) : rest2.length ≤ rest.length := by
  rw [parse_node.eq_def] at h
  by_cases c1 : (is_blank line || is_comment line) = true
  · rw [if_pos c1] at h; simp at h; simp [h.2.symm]
  · rw [if_neg c1] at h
    by_cases c2 : ("title:".toList.isPrefixOf (pyLower (pyStrip line))) = true
    · rw [if_pos c2] at h; simp at h; simp [h.2.symm]
    · rw [if_neg c2] at h
      by_cases c3 : ("sec:".toList.isPrefixOf (pyLower (pyStrip line)) &&
          !(((pyStrip line).take 4).contains '=')) = true
      · rw [if_pos c3] at h; simp at h; simp [h.2.symm]
      · rw [if_neg c3] at h
        by_cases c4 : ("sec=".toList.isPrefixOf (pyLower (pyStrip line))) = true
        · rw [if_pos c4] at h
          rcases hre : reGroupsAfterEq ("sec=".toList) (pyStrip line) with _ | g
          · rw [hre] at h
            cases mode
            · simp at h
              simp [h.2.symm, List.length_drop]
            · simp at h
          · rw [hre] at h; simp at h; simp [h.2.symm]
        · rw [if_neg c4] at h
          by_cases c5 : ("para:".toList.isPrefixOf (pyLower (pyStrip line))) = true
          · rw [if_pos c5] at h; simp at h; simp [h.2.symm]
          · rw [if_neg c5] at h
            by_cases c6 : pyLower (pyStrip line) = "break-line".toList ∨
                pyLower (pyStrip line) = "break-line:".toList
            · rw [if_pos c6] at h; simp at h; simp [h.2.symm]
            · rw [if_neg c6] at h
              by_cases c7 : ("olist:".toList.isPrefixOf (pyLower (pyStrip line))) = true
              · rw [if_pos c7] at h
                unfold parse_list at h
                rcases hol : olistRe (pyStrip line) with _ | ty
                · rw [hol] at h; simp [Except.map] at h
                · rw [hol] at h; simp [Except.map] at h
                  rw [← h.2]
                  exact parse_list_items_length rest
              · rw [if_neg c7] at h
                by_cases c8 : pyLower (pyStrip line) = "code:".toList
                · rw [if_pos c8] at h; simp at h
                  rw [← h.2]
                  unfold parse_code_block
                  exact parse_code_lines_length rest
                · rw [if_neg c8] at h
                  by_cases c9 : ("img:=".toList.isPrefixOf (pyLower (pyStrip line))) = true
                  · rw [if_pos c9] at h; simp at h; simp [h.2.symm]
                  · rw [if_neg c9] at h
                    by_cases c10 : ("link:".toList.isPrefixOf (pyLower (pyStrip line))) = true
                    · rw [if_pos c10] at h; simp at h; simp [h.2.symm]
                    · rw [if_neg c10] at h
                      by_cases c11 :
                          ("linktxt:".toList.isPrefixOf (pyLower (pyStrip line))) = true
                      · rw [if_pos c11] at h; simp at h; simp [h.2.symm]
                      · rw [if_neg c11] at h
                        by_cases c12 :
                            ("opensn=".toList.isPrefixOf (pyLower (pyStrip line))) = true
                        · rw [if_pos c12] at h
                          rcases hre : reGroupsAfterEq ("opensn=".toList) (pyStrip line)
                            with _ | g
                          · rw [hre] at h
                            cases mode
                            · simp at h
                              simp [h.2.symm, List.length_drop]
                            · simp at h
                          · rw [hre] at h; simp at h; simp [h.2.symm]
                        · rw [if_neg c12] at h
                          by_cases c13 :
                              ("endnewsn:".toList.isPrefixOf (pyLower (pyStrip line))) = true
                          · rw [if_pos c13] at h; simp at h; simp [h.2.symm]
                          · rw [if_neg c13] at h
                            by_cases c14 :
                                ("sign:".toList.isPrefixOf (pyLower (pyStrip line))) = true
                            · rw [if_pos c14] at h; simp at h; simp [h.2.symm]
                            · rw [if_neg c14] at h
                              by_cases c15 : pyLower (pyStrip line) = "close:".toList
                              · rw [if_pos c15] at h; simp at h; simp [h.2.symm]
                              · rw [if_neg c15] at h
                                cases mode
                                · simp at h; simp [h.2.symm]
                                · simp at h


theorem findClose_length {s inner rest : Str} (h : findClose s = some (inner, rest)) :
    rest.length < s.length := by
  induction s generalizing inner rest with
  | nil => simp [findClose] at h
  | cons c t ih =>
    simp only [findClose] at h
    split at h
    · simp at h
    · split at h
      · simp at h
        simp [h.2.symm]
      · rcases hfc : findClose t with _ | p
        · rw [hfc] at h; simp at h
        · rw [hfc] at h; simp at h
          have hlt := ih hfc
          rcases h with ⟨h1, h2⟩
          subst h2
          simp only [List.length_cons]
          omega


theorem normalizeBytes_eq_onePass (l : List Nat) : normalizeBytes l = normalizeOnePass l := by
  unfold normalizeBytes
  induction l using replaceCRLF.induct with
  | case1 t ih => simp [replaceCRLF, replaceCR, normalizeOnePass] at ih ⊢; exact ih
  | case2 b t hb ih =>
    by_cases hb13 : b = 13
    · subst hb13
      match t, hb, ih with
      | [], _, _ => simp [replaceCRLF, replaceCR, normalizeOnePass]
      | b2 :: t2, hb, ih =>
        have hb2 : b2 ≠ 10 := fun hc => hb t2 rfl (by rw [hc])
        simp [replaceCRLF, replaceCR, normalizeOnePass, hb2] at ih ⊢
        exact ih
    · simp [replaceCRLF, replaceCR, normalizeOnePass, hb13] at ih ⊢
      exact ih
  | case3 => simp [replaceCRLF, replaceCR, normalizeOnePass]


theorem linesBeforeSign_eq_none {l : List (List Nat)} (h : l.any isSignLineB = false) :
    linesBeforeSign l = none := by
  induction l with
  | nil => rfl
  | cons a t ih =>
    simp only [List.any_cons, Bool.or_eq_false_iff] at h
    simp [linesBeforeSign, h.1, ih h.2]


theorem linesBeforeSign_eq_some {l : List (List Nat)} (h : l.any isSignLineB = true) :
    linesBeforeSign l = some (l.takeWhile (fun x => !(isSignLineB x))) := by
  induction l with
  | nil => simp at h
  | cons a t ih =>
    by_cases ha : isSignLineB a
    · simp [linesBeforeSign, ha, List.takeWhile_cons, ha]
    · simp only [List.any_cons, ha, Bool.false_or] at h
      simp [linesBeforeSign, ha, ih h, List.takeWhile_cons]


/-! ## Supporting lemmas: splitting, joining, ASCII transfer -/

theorem splitSep_ne_nil {α : Type} [DecidableEq α] (sep : α) (l : List α) :
    splitSep sep l ≠ [] := by
  cases l with
  | nil => simp [splitSep]
  | cons a t =>
    simp only [splitSep]
    rcases h : splitSep sep t with _ | ⟨h1, r⟩
    · simp
    · simp only [h]
      split <;> simp


theorem splitSep_sepFree {α : Type} [DecidableEq α] {sep : α} {l : List α}
    (h : sep ∉ l) : splitSep sep l = [l] := by
  induction l with
  | nil => rfl
  | cons a t ih =>
    simp only [List.mem_cons, not_or] at h
    have ha : ¬(a = sep) := fun hh => h.1 hh.symm
    simp [splitSep, ih h.2, ha]


theorem splitSep_append_sep {α : Type} [DecidableEq α] {sep : α} {l : List α}
    (r : List α) (h : sep ∉ l) :
    splitSep sep (l ++ sep :: r) = l :: splitSep sep r := by
  induction l with
  | nil =>
    simp only [List.nil_append, splitSep]
    rcases hr : splitSep sep r with _ | ⟨h1, rr⟩
    · exact absurd hr (splitSep_ne_nil sep r)
    · simp
  | cons a t ih =>
    simp only [List.mem_cons, not_or] at h
    have ha : ¬(a = sep) := fun hh => h.1 hh.symm
    simp [splitSep, ih h.2, ha]


theorem splitSep_joinSep {α : Type} [DecidableEq α] {sep : α} {L : List (List α)}
    (hL : L ≠ []) (hfree : ∀ l ∈ L, sep ∉ l) :
    splitSep sep (joinSep sep L) = L := by
  induction L with
  | nil => exact absurd rfl hL
  | cons l ls ih =>
    cases ls with
    | nil =>
      simp only [joinSep]
      exact splitSep_sepFree (hfree l (by simp))
    | cons l2 ls2 =>
      simp only [joinSep]
      rw [splitSep_append_sep _ (hfree l (by simp))]
      rw [ih (by simp) (fun x hx => hfree x (by simp [hx]))]


theorem joinSep_map {α β : Type} (f : α → β) (sep : α) (L : List (List α)) :
    (joinSep sep L).map f = joinSep (f sep) (L.map (List.map f)) := by
  induction L with
  | nil => rfl
  | cons l ls ih =>
    cases ls with
    | nil => simp [joinSep]
    | cons l2 ls2 =>
      simp only [joinSep, List.map_cons, List.map_append] at ih ⊢
      simp [ih]


theorem mem_joinSep {α : Type} {sep : α} {L : List (List α)} {c : α}
    (h : c ∈ joinSep sep L) : c = sep ∨ ∃ l ∈ L, c ∈ l := by
  induction L with
  | nil => simp [joinSep] at h
  | cons l ls ih =>
    cases ls with
    | nil =>
      simp only [joinSep] at h
      exact Or.inr ⟨l, by simp, h⟩
    | cons l2 ls2 =>
      simp only [joinSep, List.mem_append, List.mem_cons] at h
      rcases h with h | h | h
      · exact Or.inr ⟨l, by simp, h⟩
      · exact Or.inl h
      · rcases ih h with h2 | ⟨x, hx, hcx⟩
        · exact Or.inl h2
        · exact Or.inr ⟨x, by simp [hx], hcx⟩


theorem toNat_ofNat_valid {n : Nat} (h : n < 55296) : (Char.ofNat n).toNat = n := by
  have hv : n.isValidChar := Or.inl h
  rw [Char.ofNat, dif_pos hv]
  rfl


theorem char_toNat_inj {a b : Char} (h : a.toNat = b.toNat) : a = b := by
  have h2 := congrArg Char.ofNat h
  simpa using h2

/-- A line of plain ASCII text with no newline or carriage return. -/
@[reducible] def cleanLine (l : Str) : Prop :=
  ∀ c ∈ l, c.toNat < 128 ∧ c ≠ '\n' ∧ c ≠ '\r'


theorem utf8Encode_ascii {s : Str} (h : ∀ c ∈ s, c.toNat < 128) :
    utf8Encode s = s.map Char.toNat := by
  induction s with
  | nil => rfl
  | cons c t ih =>
    have hc := h c (by simp)
    simp only [utf8Encode, List.map_cons, List.flatten_cons] at *
    rw [ih (fun x hx => h x (by simp [hx]))]
    simp [utf8EncodeChar, hc]


theorem utf8Step_ascii {b : Nat} (t : List Nat) (h : b < 128) :
    utf8Step b t = some (Char.ofNat b, t) := by
  unfold utf8Step
  rw [if_pos h]


theorem utf8DecodeStrictAux_ascii {s : Str} (h : ∀ c ∈ s, c.toNat < 128) :
    ∀ fuel, s.length ≤ fuel → utf8DecodeStrictAux fuel (s.map Char.toNat) = some s := by
  induction s with
  | nil => intro fuel _; cases fuel <;> rfl
  | cons c t ih =>
    intro fuel hfuel
    have hc := h c (by simp)
    have ht := ih (fun x hx => h x (by simp [hx]))
    cases fuel with
    | zero => simp at hfuel
    | succ f =>
      rw [List.map_cons]
      simp only [utf8DecodeStrictAux, utf8Step_ascii _ hc]
      rw [ht f (by simp at hfuel; omega)]
      simp


theorem utf8DecodeStrict_ascii {s : Str} (h : ∀ c ∈ s, c.toNat < 128) :
    utf8DecodeStrict (s.map Char.toNat) = some s := by
  rw [utf8DecodeStrict]
  exact utf8DecodeStrictAux_ascii h _ (by simp)


theorem utf8DecodeIgnoreAux_ascii {s : Str} (h : ∀ c ∈ s, c.toNat < 128) :
    ∀ fuel, s.length ≤ fuel → utf8DecodeIgnoreAux fuel (s.map Char.toNat) = s := by
  induction s with
  | nil => intro fuel _; cases fuel <;> rfl
  | cons c t ih =>
    intro fuel hfuel
    have hc := h c (by simp)
    have ht := ih (fun x hx => h x (by simp [hx]))
    cases fuel with
    | zero => simp at hfuel
    | succ f =>
      rw [List.map_cons]
      simp only [utf8DecodeIgnoreAux, utf8Step_ascii _ hc]
      rw [ht f (by simp at hfuel; omega)]
      simp


theorem utf8DecodeIgnore_ascii {s : Str} (h : ∀ c ∈ s, c.toNat < 128) :
    utf8DecodeIgnore (s.map Char.toNat) = s := by
  rw [utf8DecodeIgnore]
  exact utf8DecodeIgnoreAux_ascii h _ (by simp)


theorem translateNewlines_no_cr {s : Str} (h : '\r' ∉ s) : translateNewlines s = s := by
  induction s using translateNewlines.induct with
  | case1 t ih => simp at h
  | case2 t hne ih => simp at h
  | case3 c t hx1 hx2 ih =>
    simp only [List.mem_cons, not_or] at h
    have hcr : ¬(c = '\r') := fun hh => h.1 hh.symm
    rw [translateNewlines.eq_3 c t (by intro t1 hc ht; exact hcr hc) (by intro hc; exact hcr hc),
      ih h.2]
  | case4 => rfl


theorem replaceCRLF_no13 {l : List Nat} (h : (13 : Nat) ∉ l) : replaceCRLF l = l := by
  induction l using replaceCRLF.induct with
  | case1 t ih => simp at h
  | case2 b t hb ih =>
    simp only [List.mem_cons, not_or] at h
    simp [replaceCRLF, ih h.2, Ne.symm h.1]
  | case3 => rfl


theorem replaceCR_no13 {l : List Nat} (h : (13 : Nat) ∉ l) : replaceCR l = l := by
  induction l with
  | nil => rfl
  | cons b t ih =>
    simp only [List.mem_cons, not_or] at h
    simp only [replaceCR, List.map_cons] at ih ⊢
    rw [if_neg (fun hh => h.1 hh.symm), ih h.2]


theorem normalizeBytes_no13 {l : List Nat} (h : (13 : Nat) ∉ l) : normalizeBytes l = l := by
  rw [normalizeBytes, replaceCRLF_no13 h, replaceCR_no13 h]


theorem stripBOM_ascii {c : List Nat} (h : ∀ b ∈ c, b < 128) : stripBOM c = c := by
  rw [stripBOM]
  split
  · rename_i hp
    rw [List.isPrefixOf_iff_prefix] at hp
    rcases hp with ⟨t, ht⟩
    have h239 : (239 : Nat) ∈ c := by rw [← ht]; simp [bomBytes]
    have := h 239 h239
    omega
  · rfl


/-! ### Transfer between the byte-level and character-level operations -/

theorem bLstrip_map_toNat (s : Str) :
    bLstrip (s.map Char.toNat) = (pyLstrip s).map Char.toNat := by
  rw [bLstrip, pyLstrip, List.dropWhile_map]
  rfl


theorem bStrip_map_toNat (s : Str) :
    bStrip (s.map Char.toNat) = (pyStrip s).map Char.toNat := by
  rw [bStrip, pyStrip, pyRstrip, pyLstrip, List.dropWhile_map, ← List.map_reverse,
    List.dropWhile_map, ← List.map_reverse]
  rfl


theorem bLower_toNat {c : Char} (h : c.toNat < 128) :
    bLower c.toNat = (asciiLowerChar c).toNat := by
  rw [bLower, asciiLowerChar]
  split
  · rename_i hc
    rw [toNat_ofNat_valid (by omega)]
  · rfl


theorem map_bLower_toNat {s : Str} (h : ∀ c ∈ s, c.toNat < 128) :
    (s.map Char.toNat).map bLower = (pyLower s).map Char.toNat := by
  rw [pyLower, List.map_map, List.map_map]
  exact List.map_congr_left (fun c hc => bLower_toNat (h c hc))


theorem isPrefixOf_map_toNat (a b : Str) :
    (a.map Char.toNat).isPrefixOf (b.map Char.toNat) = a.isPrefixOf b := by
  induction a generalizing b with
  | nil => simp [List.isPrefixOf]
  | cons x xs ih =>
    cases b with
    | nil => simp [List.isPrefixOf]
    | cons y ys =>
      simp only [List.map_cons, List.isPrefixOf, ih]
      by_cases hxy : x = y
      · simp [hxy]
      · have : ¬(x.toNat = y.toNat) := fun hc => hxy (char_toNat_inj hc)
        simp [beq_false_of_ne hxy, beq_false_of_ne this]


theorem ascii_of_sublist {s t : Str} (hsub : s.Sublist t) (h : ∀ c ∈ t, c.toNat < 128) :
    ∀ c ∈ s, c.toNat < 128 := fun c hc => h c (hsub.mem hc)


theorem pyLstrip_sublist (s : Str) : (pyLstrip s).Sublist s := by
  rw [pyLstrip]
  exact (List.dropWhile_sublist _)


theorem pyStrip_sublist (s : Str) : (pyStrip s).Sublist s := by
  rw [pyStrip, pyRstrip]
  refine List.Sublist.trans ?_ (pyLstrip_sublist s)
  have h1 : ((pyLstrip s).reverse.dropWhile pyWs).Sublist (pyLstrip s).reverse :=
    List.dropWhile_sublist _
  have h2 := h1.reverse
  simpa using h2


/-- For an ASCII line, the byte-level `sign:` test of `canonical_bytes`
is the character-level one. -/
theorem isSignLineB_map {l : Str} (h : ∀ c ∈ l, c.toNat < 128) :
    isSignLineB (l.map Char.toNat) =
      "sign:".toList.isPrefixOf (pyLower (pyLstrip l)) := by
  rw [isSignLineB, bLstrip_map_toNat,
    map_bLower_toNat (ascii_of_sublist (pyLstrip_sublist l) h)]
  have hs : signBytes = "sign:".toList.map Char.toNat := by decide
  rw [hs, isPrefixOf_map_toNat]


/-- For an ASCII line, the byte-level `sign:` test of `extract_signature`
is the character-level one. -/
theorem isSignLineStrip_map {l : Str} (h : ∀ c ∈ l, c.toNat < 128) :
    signBytes.isPrefixOf ((bStrip (l.map Char.toNat)).map bLower) =
      "sign:".toList.isPrefixOf (pyLower (pyStrip l)) := by
  rw [bStrip_map_toNat, map_bLower_toNat (ascii_of_sublist (pyStrip_sublist l) h)]
  have hs : signBytes = "sign:".toList.map Char.toNat := by decide
  rw [hs, isPrefixOf_map_toNat]


/-! ### Trimming, filtering and searching -/

theorem pyStrip_nil : pyStrip ([] : Str) = [] := rfl


theorem trimTrailingBlanks_append_blank (M : List Str) :
    trimTrailingBlanks (M ++ [([] : Str)]) = trimTrailingBlanks M := by
  rw [trimTrailingBlanks, trimTrailingBlanks, List.reverse_append]
  rfl


theorem trimTrailingBlanks_eq_self {M : List Str}
    (h : ∀ lst ∈ M.getLast?, pyStrip lst ≠ []) : trimTrailingBlanks M = M := by
  rw [trimTrailingBlanks]
  rcases hrev : M.reverse with _ | ⟨a, r⟩
  · simp_all
  · have ha : M.getLast? = some a := by
      rw [← List.head?_reverse, hrev]
      rfl
    have h2 := h a (by simp [ha])
    rw [List.dropWhile_cons, if_neg (by simpa using h2)]
    rw [← hrev, List.reverse_reverse]


theorem firstSome_append_none {α β : Type} {f : α → Option β} {l1 : List α} (l2 : List α)
    (h : ∀ a ∈ l1, f a = none) :
    firstSome f (l1 ++ l2) = firstSome f l2 := by
  induction l1 with
  | nil => rfl
  | cons a t ih =>
    rw [List.cons_append, firstSome, h a (by simp)]
    exact ih (fun x hx => h x (by simp [hx]))


theorem linesBeforeSign_append {l1 : List (List Nat)} {a : List Nat} (l2 : List (List Nat))
    (h1 : ∀ x ∈ l1, isSignLineB x = false) (h2 : isSignLineB a = true) :
    linesBeforeSign (l1 ++ a :: l2) = some l1 := by
  induction l1 with
  | nil => simp [linesBeforeSign, h2]
  | cons x t ih =>
    rw [List.cons_append, linesBeforeSign]
    rw [if_neg (by simp [h1 x (by simp)])]
    rw [ih (fun y hy => h1 y (by simp [hy]))]
    rfl

/-! ### The signature token -/

/-- ASCII text with no whitespace at all (in particular no newline or
carriage return). -/
@[reducible] def tokenOK (s : Str) : Prop := ∀ c ∈ s, c.toNat < 128 ∧ pyWs c = false


theorem toBytesBE_lt (k n : Nat) : ∀ b ∈ toBytesBE k n, b < 256 := by
  induction k generalizing n with
  | zero => simp [toBytesBE]
  | succ k ih =>
    intro b hb
    rw [toBytesBE] at hb
    rcases List.mem_append.mp hb with h | h
    · exact ih _ b h
    · simp at h
      omega


theorem sha256_bytes_lt (msg : List Nat) : ∀ b ∈ sha256 msg, b < 256 := by
  intro b hb
  rw [sha256] at hb
  rcases List.mem_flatten.mp hb with ⟨l, hl, hbl⟩
  rcases List.mem_map.mp hl with ⟨w, _, hw⟩
  exact toBytesBE_lt 4 w b (hw ▸ hbl)


theorem hexUpperDigit_ok {n : Nat} (h : n ≤ 15) :
    (hexUpperDigit n).toNat < 128 ∧ pyWs (hexUpperDigit n) = false := by
  rw [hexUpperDigit]
  split
  · rw [pyWs, byteWs, toNat_ofNat_valid (by omega)]
    constructor
    · omega
    · simp
      omega
  · rw [pyWs, byteWs, toNat_ofNat_valid (by omega)]
    constructor
    · omega
    · simp
      omega


theorem hexUpper_tokenOK {bytes : List Nat} (h : ∀ b ∈ bytes, b < 256) :
    tokenOK (hexUpper bytes) := by
  intro c hc
  rw [hexUpper] at hc
  rcases List.mem_flatten.mp hc with ⟨l, hl, hcl⟩
  rcases List.mem_map.mp hl with ⟨b, hb, hbl⟩
  have hb256 := h b hb
  subst hbl
  simp only [List.mem_cons, List.not_mem_nil, or_false] at hcl
  rcases hcl with h1 | h1 <;> subst h1
  · exact hexUpperDigit_ok (by omega)
  · exact hexUpperDigit_ok (by omega)


theorem compute_signature_tokenOK (content : List Nat) :
    tokenOK (compute_signature content) ∧ compute_signature content ≠ [] := by
  constructor
  · intro c hc
    rw [compute_signature] at hc
    rcases List.mem_append.mp hc with h | h
    · fin_cases h <;> exact (by decide)
    · exact hexUpper_tokenOK (sha256_bytes_lt _) c h
  · rw [compute_signature]
    simp


/-! ### Stripping around whitespace-free tokens -/

theorem pyLstrip_cons_not_ws {c : Char} (s : Str) (h : pyWs c = false) :
    pyLstrip (c :: s) = c :: s := by
  rw [pyLstrip, List.dropWhile_cons, if_neg (by simp [h])]


theorem pyRstrip_last_not_ws {s : Str} (h : ∀ lst ∈ s.getLast?, pyWs lst = false) :
    pyRstrip s = s := by
  rw [pyRstrip]
  rcases hrev : s.reverse with _ | ⟨a, r⟩
  · simp_all
  · have ha : s.getLast? = some a := by
      rw [← List.head?_reverse, hrev]
      rfl
    have h2 := h a (by simp [ha])
    rw [List.dropWhile_cons, if_neg (by simp [h2])]
    rw [← hrev, List.reverse_reverse]


theorem pyStrip_no_ws {s : Str} (h : ∀ c ∈ s, pyWs c = false) : pyStrip s = s := by
  rcases s with _ | ⟨c, t⟩
  · rfl
  · rw [pyStrip, pyLstrip_cons_not_ws t (h c (by simp))]
    exact pyRstrip_last_not_ws (fun lst hl => h lst (List.mem_of_mem_getLast? hl))


theorem pyStrip_space_cons {s : Str} (h : ∀ c ∈ s, pyWs c = false) :
    pyStrip (' ' :: s) = s := by
  have h1 : pyLstrip (' ' :: s) = pyLstrip s := by
    rw [pyLstrip, pyLstrip, List.dropWhile_cons, if_pos (by decide)]
  rw [pyStrip, h1, ← pyStrip, pyStrip_no_ws h]


/-! ### Facts about the appended signature and seal lines -/

theorem cleanLine_of_tokenOK {s : Str} (h : tokenOK s) : cleanLine s := by
  intro c hc
  refine ⟨(h c hc).1, ?_, ?_⟩
  · intro he
    have := (h c hc).2
    rw [he] at this
    exact absurd this (by decide)
  · intro he
    have := (h c hc).2
    rw [he] at this
    exact absurd this (by decide)


theorem pyStrip_signline {sig : Str} (htok : tokenOK sig) (hne : sig ≠ []) :
    pyStrip ("sign: ".toList ++ sig) = "sign: ".toList ++ sig := by
  have hl : pyLstrip ("sign: ".toList ++ sig) = "sign: ".toList ++ sig := by
    have : "sign: ".toList ++ sig = 's' :: ("ign: ".toList ++ sig) := by simp
    rw [this, pyLstrip_cons_not_ws _ (by decide), ← this]
  rw [pyStrip, hl]
  refine pyRstrip_last_not_ws ?_
  intro lst hlst
  rw [List.getLast?_append] at hlst
  rcases hsig : sig.getLast? with _ | a
  · rw [hsig] at hlst
    exact absurd hsig (by simp [List.getLast?_eq_none_iff, hne])
  · rw [hsig] at hlst
    simp only [Option.or_some, Option.mem_def, Option.some.injEq] at hlst
    subst hlst
    exact (htok a (List.mem_of_mem_getLast? (by rw [hsig]; rfl))).2


theorem pyLower_signline (sig : Str) :
    pyLower ("sign: ".toList ++ sig) = "sign: ".toList ++ pyLower sig := by
  rw [pyLower, List.map_append]
  have h1 : List.map asciiLowerChar ("sign: ".toList) = "sign: ".toList := by decide
  rw [h1]
  rfl


theorem sign_isPrefixOf_signline (x : Str) :
    "sign:".toList.isPrefixOf ("sign: ".toList ++ x) = true := by
  rw [List.isPrefixOf_iff_prefix]
  refine ⟨' ' :: x, ?_⟩
  have : "sign: ".toList = "sign:".toList ++ [' '] := by decide
  rw [this, List.append_assoc]
  rfl


theorem isSignOrClose_signline {sig : Str} (htok : tokenOK sig) (hne : sig ≠ []) :
    isSignOrClose ("sign: ".toList ++ sig) = true := by
  rw [isSignOrClose, pyStrip_signline htok hne, pyLower_signline,
    sign_isPrefixOf_signline]
  rfl


theorem signline_ascii {sig : Str} (htok : tokenOK sig) :
    ∀ c ∈ "sign: ".toList ++ sig, c.toNat < 128 := by
  intro c hc
  rcases List.mem_append.mp hc with h | h
  · fin_cases h <;> exact (by decide)
  · exact (htok c h).1


theorem signline_clean {sig : Str} (htok : tokenOK sig) :
    cleanLine ("sign: ".toList ++ sig) := by
  intro c hc
  rcases List.mem_append.mp hc with h | h
  · fin_cases h <;> exact (by decide)
  · exact cleanLine_of_tokenOK htok c h


theorem isSignLineB_signline {sig : Str} (htok : tokenOK sig) (_hne : sig ≠ []) :
    isSignLineB (("sign: ".toList ++ sig).map Char.toNat) = true := by
  rw [isSignLineB_map (signline_ascii htok)]
  have hl : pyLstrip ("sign: ".toList ++ sig) = "sign: ".toList ++ sig := by
    have : "sign: ".toList ++ sig = 's' :: ("ign: ".toList ++ sig) := by simp
    rw [this, pyLstrip_cons_not_ws _ (by decide), ← this]
  rw [hl, pyLower_signline, sign_isPrefixOf_signline]


theorem extract_entry_signline {sig : Str} (htok : tokenOK sig) (hne : sig ≠ []) :
    extract_entry (("sign: ".toList ++ sig).map Char.toNat) = some sig := by
  unfold extract_entry
  dsimp only
  have hstrip : bStrip (("sign: ".toList ++ sig).map Char.toNat) =
      ("sign: ".toList ++ sig).map Char.toNat := by
    rw [bStrip_map_toNat, pyStrip_signline htok hne]
  have hpre : signBytes.isPrefixOf
      ((bStrip (("sign: ".toList ++ sig).map Char.toNat)).map bLower) = true := by
    rw [hstrip, map_bLower_toNat (signline_ascii htok)]
    have hs : signBytes = "sign:".toList.map Char.toNat := by decide
    rw [hs, isPrefixOf_map_toNat, pyLower_signline, sign_isPrefixOf_signline]
  have hdec : utf8DecodeIgnore (bStrip (("sign: ".toList ++ sig).map Char.toNat)) =
      "sign: ".toList ++ sig := by
    rw [hstrip, utf8DecodeIgnore_ascii (signline_ascii htok)]
  have hcont : ("sign: ".toList ++ sig).contains ':' = true := by
    simp [List.contains, List.elem_iff]
  have hafter : afterFirst ':' ("sign: ".toList ++ sig) = ' ' :: sig := by
    simp [afterFirst, List.dropWhile]
  rw [hpre, if_pos rfl, hdec, hcont, if_pos rfl, hafter,
    pyStrip_space_cons (fun c hc => (htok c hc).2)]


/-! ### The structure of a freshly signed file -/

theorem joinSep_ascii {L : List Str} (hclean : ∀ l ∈ L, cleanLine l) :
    ∀ c ∈ joinSep '\n' L, c.toNat < 128 := by
  intro c hc
  rcases mem_joinSep hc with h | ⟨l, hl, hcl⟩
  · subst h; decide
  · exact (hclean l hl c hcl).1


theorem joinSep_no_cr {L : List Str} (hclean : ∀ l ∈ L, cleanLine l) :
    '\r' ∉ joinSep '\n' L := by
  intro hc
  rcases mem_joinSep hc with h | ⟨l, hl, hcl⟩
  · exact absurd h (by decide)
  · exact (hclean l hl _ hcl).2.2 rfl


theorem cleanLine_lf_free {L : List Str} (hclean : ∀ l ∈ L, cleanLine l) :
    ∀ l ∈ L, '\n' ∉ l := fun l hl hc => (hclean l hl _ hc).2.1 rfl


/-- `sign_file` on an LF-joined list of clean lines none of which is a
signature or seal line: the returned signature is the one computed from
the input, and the rewritten file is the trimmed lines followed by a
blank line, the signature line and the seal line. -/
theorem sign_file_eq (L : List Str) (hne : L ≠ [])
    (hclean : ∀ l ∈ L, cleanLine l)
    (hfil : ∀ l ∈ L, isSignOrClose l = false) :
    sign_file (utf8Encode (joinSep '\n' L)) =
      some (compute_signature (utf8Encode (joinSep '\n' L)),
        utf8Encode (joinSep '\n' (trimTrailingBlanks L ++
          [([] : Str),
           "sign: ".toList ++ compute_signature (utf8Encode (joinSep '\n' L)),
           "close:".toList]))) := by
  have hJascii := joinSep_ascii hclean
  have hJnoCR := joinSep_no_cr hclean
  have hLfree := cleanLine_lf_free hclean
  have hfil2 : ∀ a ∈ L, (!(isSignOrClose a)) = true := by
    intro a ha
    rw [hfil a ha]
    rfl
  unfold sign_file
  rw [utf8Encode_ascii hJascii, utf8DecodeStrict_ascii hJascii]
  dsimp only
  rw [translateNewlines_no_cr hJnoCR, splitSep_joinSep hne hLfree,
    List.filter_eq_self.mpr hfil2]


theorem encode_bytes_ascii {L : List Str} (hclean : ∀ l ∈ L, cleanLine l) :
    ∀ b ∈ (joinSep '\n' L).map Char.toNat, b < 128 := by
  intro b hb
  rcases List.mem_map.mp hb with ⟨c, hc, hcb⟩
  exact hcb ▸ joinSep_ascii hclean c hc


theorem encode_bytes_no13 {L : List Str} (hclean : ∀ l ∈ L, cleanLine l) :
    (13 : Nat) ∉ (joinSep '\n' L).map Char.toNat := by
  intro hb
  rcases List.mem_map.mp hb with ⟨c, hc, hcb⟩
  have : c = '\r' := char_toNat_inj hcb
  exact joinSep_no_cr hclean (this ▸ hc)


theorem splitSep_encode_join {L : List Str} (hne : L ≠ []) (hclean : ∀ l ∈ L, cleanLine l) :
    splitSep 10 ((joinSep '\n' L).map Char.toNat) = L.map (List.map Char.toNat) := by
  rw [joinSep_map Char.toNat '\n' L]
  refine splitSep_joinSep (by simpa using hne) ?_
  intro bl hbl h10
  rcases List.mem_map.mp hbl with ⟨l, hl, hlb⟩
  subst hlb
  rcases List.mem_map.mp h10 with ⟨c, hc, hcb⟩
  have : c = '\n' := char_toNat_inj hcb
  exact (hclean l hl c hc).2.1 this


theorem canonical_unsigned {L : List Str} (hne : L ≠ []) (hclean : ∀ l ∈ L, cleanLine l)
    (hsig1 : ∀ l ∈ L, "sign:".toList.isPrefixOf (pyLower (pyLstrip l)) = false) :
    canonical_bytes ((joinSep '\n' L).map Char.toNat) = (joinSep '\n' L).map Char.toNat := by
  unfold canonical_bytes
  dsimp only
  rw [stripBOM_ascii (encode_bytes_ascii hclean),
    normalizeBytes_no13 (encode_bytes_no13 hclean),
    splitSep_encode_join hne hclean]
  rw [linesBeforeSign_eq_none]
  rw [List.any_eq_false]
  intro bl hbl
  rcases List.mem_map.mp hbl with ⟨l, hl, hlb⟩
  subst hlb
  rw [isSignLineB_map (fun c hc => (hclean l hl c hc).1)]
  exact (hsig1 l hl) ▸ (by simp [hsig1 l hl])


theorem cleanAll_signed {T : List Str} {sig : Str} (hcleanT : ∀ l ∈ T, cleanLine l)
    (htok : tokenOK sig) :
    ∀ l ∈ T ++ [([] : Str), "sign: ".toList ++ sig, "close:".toList], cleanLine l := by
  intro l hl
  rcases List.mem_append.mp hl with h | h
  · exact hcleanT l h
  · simp only [List.mem_cons, List.not_mem_nil, or_false] at h
    rcases h with h | h | h <;> subst h
    · exact (by decide)
    · exact signline_clean htok
    · exact (by decide)


/-- The byte content of a signed file produced by `sign_file`:
`T ++ [blank, sign-line, close-line]` joined and encoded. -/
theorem canonical_signed (T : List Str) (sig : Str)
    (hcleanT : ∀ l ∈ T, cleanLine l)
    (hsig1T : ∀ l ∈ T, "sign:".toList.isPrefixOf (pyLower (pyLstrip l)) = false)
    (htok : tokenOK sig) (hnesig : sig ≠ []) :
    canonical_bytes ((joinSep '\n'
        (T ++ [([] : Str), "sign: ".toList ++ sig, "close:".toList])).map Char.toNat) =
      (joinSep '\n' (T ++ [([] : Str)])).map Char.toNat := by
  have hcleanAll := cleanAll_signed hcleanT htok
  unfold canonical_bytes
  dsimp only
  rw [stripBOM_ascii (encode_bytes_ascii hcleanAll),
    normalizeBytes_no13 (encode_bytes_no13 hcleanAll),
    splitSep_encode_join (by simp) hcleanAll]
  have hresh : (T ++ [([] : Str), "sign: ".toList ++ sig, "close:".toList]).map
      (List.map Char.toNat) =
      ((T ++ [([] : Str)]).map (List.map Char.toNat)) ++
        (("sign: ".toList ++ sig).map Char.toNat) :: ["close:".toList.map Char.toNat] := by
    simp
  rw [hresh, linesBeforeSign_append _ ?_ (isSignLineB_signline htok hnesig)]
  · dsimp only
    rw [joinSep_map Char.toNat '\n' (T ++ [([] : Str)])]
    exact rfl
  · intro x hx
    rcases List.mem_map.mp hx with ⟨l, hl, hlb⟩
    subst hlb
    rcases List.mem_append.mp hl with h | h
    · rw [isSignLineB_map (fun c hc => (hcleanT l h c hc).1)]
      exact hsig1T l h
    · simp only [List.mem_cons, List.not_mem_nil, or_false] at h
      subst h
      decide


theorem extract_entry_of_not_sign {l : Str} (hascii : ∀ c ∈ l, c.toNat < 128)
    (hsig2 : "sign:".toList.isPrefixOf (pyLower (pyStrip l)) = false) :
    extract_entry (l.map Char.toNat) = none := by
  unfold extract_entry
  dsimp only
  rw [isSignLineStrip_map hascii, hsig2]
  simp


theorem extract_signed (T : List Str) (sig : Str)
    (hcleanT : ∀ l ∈ T, cleanLine l)
    (hsig2T : ∀ l ∈ T, "sign:".toList.isPrefixOf (pyLower (pyStrip l)) = false)
    (htok : tokenOK sig) (hnesig : sig ≠ []) :
    extract_signature ((joinSep '\n'
        (T ++ [([] : Str), "sign: ".toList ++ sig, "close:".toList])).map Char.toNat) =
      some sig := by
  have hcleanAll := cleanAll_signed hcleanT htok
  unfold extract_signature
  dsimp only
  rw [stripBOM_ascii (encode_bytes_ascii hcleanAll),
    normalizeBytes_no13 (encode_bytes_no13 hcleanAll),
    splitSep_encode_join (by simp) hcleanAll]
  have hmap : (T ++ [([] : Str), "sign: ".toList ++ sig, "close:".toList]).map
      (List.map Char.toNat) =
      T.map (List.map Char.toNat) ++ (([] : List Nat) ::
        (("sign: ".toList ++ sig).map Char.toNat) :: ["close:".toList.map Char.toNat]) := by
    simp
  rw [hmap, firstSome_append_none _ ?_]
  · rw [firstSome]
    have h0 : extract_entry ([] : List Nat) = none := by decide
    rw [h0]
    rw [firstSome, extract_entry_signline htok hnesig]
  · intro a ha
    rcases List.mem_map.mp ha with ⟨l, hl, hlb⟩
    subst hlb
    exact extract_entry_of_not_sign (fun c hc => (hcleanT l hl c hc).1) (hsig2T l hl)


theorem has_close_marker_signed (T : List Str) (sig : Str)
    (hcleanT : ∀ l ∈ T, cleanLine l) (htok : tokenOK sig) :
    has_close_marker ((joinSep '\n'
        (T ++ [([] : Str), "sign: ".toList ++ sig, "close:".toList])).map Char.toNat)
      = true := by
  have hcleanAll := cleanAll_signed hcleanT htok
  unfold has_close_marker
  dsimp only
  rw [utf8DecodeIgnore_ascii (joinSep_ascii hcleanAll),
    translateNewlines_no_cr (joinSep_no_cr hcleanAll),
    splitSep_joinSep (by simp) (cleanLine_lf_free hcleanAll)]
  apply List.any_eq_true.mpr
  exact ⟨"close:".toList, by simp, by decide⟩


/-- Verification succeeds and the seal marker is present on the output of
a fresh `sign_file`, provided the embedded signature is the digest of the
content before the signature line. -/
theorem verify_signed_output (T : List Str) (sig : Str)
    (hcleanT : ∀ l ∈ T, cleanLine l)
    (hsig1T : ∀ l ∈ T, "sign:".toList.isPrefixOf (pyLower (pyLstrip l)) = false)
    (hsig2T : ∀ l ∈ T, "sign:".toList.isPrefixOf (pyLower (pyStrip l)) = false)
    (htok : tokenOK sig) (hnesig : sig ≠ [])
    (hval : sig = "SHA256-".toList ++
      hexUpper (sha256 ((joinSep '\n' (T ++ [([] : Str)])).map Char.toNat))) :
    (verify_signature ((joinSep '\n'
        (T ++ [([] : Str), "sign: ".toList ++ sig, "close:".toList])).map Char.toNat)).1
        = true ∧
      has_close_marker ((joinSep '\n'
        (T ++ [([] : Str), "sign: ".toList ++ sig, "close:".toList])).map Char.toNat)
        = true := by
  have hclose := has_close_marker_signed T sig hcleanT htok
  refine ⟨?_, hclose⟩
  have hx := extract_signed T sig hcleanT hsig2T htok hnesig
  have hexp : compute_signature ((joinSep '\n'
      (T ++ [([] : Str), "sign: ".toList ++ sig, "close:".toList])).map Char.toNat)
      = sig := by
    rw [compute_signature, canonical_signed T sig hcleanT hsig1T htok hnesig]
    exact hval.symm
  unfold verify_signature
  rw [hx]
  dsimp only
  rw [hexp, if_pos rfl]
  split <;> rfl


/-- `unsign_file` on the output of a fresh `sign_file` removes the
appended blank, signature and seal lines. -/
theorem unsign_signed_output (T : List Str) (sig : Str)
    (hcleanT : ∀ l ∈ T, cleanLine l)
    (hfilT : ∀ l ∈ T, isSignOrClose l = false)
    (htok : tokenOK sig) (hnesig : sig ≠ []) :
    unsign_file ((joinSep '\n'
        (T ++ [([] : Str), "sign: ".toList ++ sig, "close:".toList])).map Char.toNat) =
      some (true, utf8Encode (joinSep '\n' (trimTrailingBlanks T))) := by
  have hcleanAll := cleanAll_signed hcleanT htok
  unfold unsign_file
  rw [show ((joinSep '\n'
      (T ++ [([] : Str), "sign: ".toList ++ sig, "close:".toList])).map Char.toNat) =
      ((joinSep '\n'
      (T ++ [([] : Str), "sign: ".toList ++ sig, "close:".toList])).map Char.toNat) from rfl]
  rw [utf8DecodeStrict_ascii (joinSep_ascii hcleanAll)]
  dsimp only
  rw [translateNewlines_no_cr (joinSep_no_cr hcleanAll),
    splitSep_joinSep (by simp) (cleanLine_lf_free hcleanAll)]
  have hTfil2 : ∀ a ∈ T, (!(isSignOrClose a)) = true := by
    intro a ha
    rw [hfilT a ha]
    rfl
  have hfilter : (T ++ [([] : Str), "sign: ".toList ++ sig, "close:".toList]).filter
      (fun l => !(isSignOrClose l)) = T ++ [([] : Str)] := by
    rw [List.filter_append, List.filter_eq_self.mpr hTfil2]
    have h1 : (!(isSignOrClose ([] : Str))) = true := by decide
    have h2 : (!(isSignOrClose ("sign: ".toList ++ sig))) = false := by
      rw [isSignOrClose_signline htok hnesig]
      rfl
    have h3 : (!(isSignOrClose ("close:".toList))) = false := by decide
    rw [List.filter_cons, List.filter_cons, List.filter_cons]
    rw [h1, h2, h3]
    simp
  have hfound : (T ++ [([] : Str), "sign: ".toList ++ sig, "close:".toList]).any
      isSignOrClose = true := by
    apply List.any_eq_true.mpr
    exact ⟨"close:".toList, by simp, by decide⟩
  rw [hfilter, hfound, if_pos rfl, trimTrailingBlanks_append_blank]


/-! ## Claims C1 and C5: the signing round trips -/

theorem clean_append_blank {M : List Str} (hclean : ∀ l ∈ M, cleanLine l) :
    ∀ l ∈ M ++ [([] : Str)], cleanLine l := by
  intro l hl
  rcases List.mem_append.mp hl with h | h
  · exact hclean l h
  · simp only [List.mem_cons, List.not_mem_nil, or_false] at h
    subst h
    exact (by decide)


theorem isSignOrClose_false_of {l : Str}
    (hsig2 : "sign:".toList.isPrefixOf (pyLower (pyStrip l)) = false)
    (hclose : ¬(pyLower (pyStrip l) = "close:".toList)) :
    isSignOrClose l = false := by
  rw [isSignOrClose]
  rw [hsig2]
  simp
  simpa using hclose


theorem sigfalse_append_blank {M : List Str}
    (hsig1 : ∀ l ∈ M, "sign:".toList.isPrefixOf (pyLower (pyLstrip l)) = false) :
    ∀ l ∈ M ++ [([] : Str)], "sign:".toList.isPrefixOf (pyLower (pyLstrip l)) = false := by
  intro l hl
  rcases List.mem_append.mp hl with h | h
  · exact hsig1 l h
  · simp only [List.mem_cons, List.not_mem_nil, or_false] at h
    subst h
    decide


/-- C1 (amended): signing a document made of clean ASCII lines, free of
signature and seal lines, whose content ends with exactly one trailing
newline after a non-blank line, produces a file that verifies as valid
and carries the seal marker. -/
theorem c1_amended (M : List Str)
    (hclean : ∀ l ∈ M, cleanLine l)
    (hsig1 : ∀ l ∈ M, "sign:".toList.isPrefixOf (pyLower (pyLstrip l)) = false)
    (hsig2 : ∀ l ∈ M, "sign:".toList.isPrefixOf (pyLower (pyStrip l)) = false)
    (hclose : ∀ l ∈ M, ¬(pyLower (pyStrip l) = "close:".toList))
    (hlast : ∀ lst ∈ M.getLast?, pyStrip lst ≠ []) :
    ((sign_file (utf8Encode (joinSep '\n' (M ++ [([] : Str)])))).map
      (fun p => ((verify_signature p.2).1, has_close_marker p.2))) = some (true, true) := by
  have hcleanL := clean_append_blank hclean
  have hfilL : ∀ l ∈ M ++ [([] : Str)], isSignOrClose l = false := by
    intro l hl
    rcases List.mem_append.mp hl with h | h
    · exact isSignOrClose_false_of (hsig2 l h) (hclose l h)
    · simp only [List.mem_cons, List.not_mem_nil, or_false] at h
      subst h
      decide
  rw [sign_file_eq (M ++ [([] : Str)]) (by simp) hcleanL hfilL]
  rw [Option.map_some']
  have hsigtok := compute_signature_tokenOK (utf8Encode (joinSep '\n' (M ++ [([] : Str)])))
  have htrim : trimTrailingBlanks (M ++ [([] : Str)]) = M := by
    rw [trimTrailingBlanks_append_blank, trimTrailingBlanks_eq_self hlast]
  rw [htrim]
  rw [utf8Encode_ascii (joinSep_ascii (cleanAll_signed hclean hsigtok.1))]
  have hval : compute_signature (utf8Encode (joinSep '\n' (M ++ [([] : Str)]))) =
      "SHA256-".toList ++
        hexUpper (sha256 ((joinSep '\n' (M ++ [([] : Str)])).map Char.toNat)) := by
    rw [compute_signature, utf8Encode_ascii (joinSep_ascii hcleanL),
      canonical_unsigned (by simp) hcleanL (sigfalse_append_blank hsig1)]
  have hv := verify_signed_output M _ hclean hsig1 hsig2 hsigtok.1 hsigtok.2 hval
  rw [hv.1, hv.2]


set_option maxRecDepth 400000 in
/-- C1 (counterexample): for the one-byte document `a` — which does not
end with a newline — signing in place and then verifying reports the
signature as invalid, even though the seal-marker check succeeds; the
rewrite performed by `sign_file` changes the canonical bytes. -/
theorem c1_counterexample :
    ((sign_file [97]).map
      (fun p => ((verify_signature p.2).1, has_close_marker p.2))) = some (false, true) := by
  decide


theorem c1_amended_witness :
    ((sign_file (utf8Encode (joinSep '\n' (["hello world".toList] ++ [([] : Str)])))).map
      (fun p => ((verify_signature p.2).1, has_close_marker p.2))) = some (true, true) :=
  c1_amended ["hello world".toList] (by decide) (by decide) (by decide) (by decide)
    (by decide)


/-- C5 (amended): for a document of clean ASCII lines with no signature
or seal lines and no trailing blank line, `unsign` exactly undoes `sign`
(the file content is restored byte for byte), so re-signing returns the
identical signature string. -/
theorem c5_amended (M : List Str) (hMne : M ≠ [])
    (hclean : ∀ l ∈ M, cleanLine l)
    (hsig2 : ∀ l ∈ M, "sign:".toList.isPrefixOf (pyLower (pyStrip l)) = false)
    (hclose : ∀ l ∈ M, ¬(pyLower (pyStrip l) = "close:".toList))
    (hlast : ∀ lst ∈ M.getLast?, pyStrip lst ≠ []) :
    ((sign_file (utf8Encode (joinSep '\n' M))).bind
        (fun p => unsign_file p.2)) = some (true, utf8Encode (joinSep '\n' M)) ∧
    ((sign_file (utf8Encode (joinSep '\n' M))).bind
        (fun p => (unsign_file p.2).bind
          (fun q => (sign_file q.2).map (fun r => r.1)))) =
      some (compute_signature (utf8Encode (joinSep '\n' M))) := by
  have hfil : ∀ l ∈ M, isSignOrClose l = false :=
    fun l hl => isSignOrClose_false_of (hsig2 l hl) (hclose l hl)
  have hsigtok := compute_signature_tokenOK (utf8Encode (joinSep '\n' M))
  have htrim : trimTrailingBlanks M = M := trimTrailingBlanks_eq_self hlast
  have hS := sign_file_eq M hMne hclean hfil
  rw [htrim] at hS
  have hU : unsign_file (utf8Encode (joinSep '\n' (M ++ [([] : Str),
      "sign: ".toList ++ compute_signature (utf8Encode (joinSep '\n' M)),
      "close:".toList]))) = some (true, utf8Encode (joinSep '\n' M)) := by
    rw [utf8Encode_ascii (joinSep_ascii (cleanAll_signed hclean hsigtok.1))]
    rw [unsign_signed_output M _ hclean hfil hsigtok.1 hsigtok.2, htrim]
  constructor
  · rw [hS]
    exact hU
  · rw [hS]
    show (unsign_file _).bind _ = _
    rw [hU]
    show (sign_file (utf8Encode (joinSep '\n' M))).map _ = _
    rw [sign_file_eq M hMne hclean hfil, Option.map_some']


set_option maxRecDepth 400000 in
/-- C5 (counterexample): for the two-byte document `a\n`, signing,
unsigning and re-signing yields a different signature than signing the
original: `unsign` trims the trailing blank line, so the canonical bytes
change from `a\n` to `a`. -/
theorem c5_counterexample :
    ((sign_file [97, 10]).bind
        (fun p => (unsign_file p.2).bind
          (fun q => (sign_file q.2).map (fun r => r.1)))) ≠
      some (compute_signature [97, 10]) := by
  decide


theorem c5_amended_witness :
    ((sign_file (utf8Encode (joinSep '\n' ["doc body".toList]))).bind
        (fun p => unsign_file p.2)) =
      some (true, utf8Encode (joinSep '\n' ["doc body".toList])) ∧
    ((sign_file (utf8Encode (joinSep '\n' ["doc body".toList]))).bind
        (fun p => (unsign_file p.2).bind
          (fun q => (sign_file q.2).map (fun r => r.1)))) =
      some (compute_signature (utf8Encode (joinSep '\n' ["doc body".toList]))) :=
  c5_amended ["doc body".toList] (by decide) (by decide) (by decide) (by decide)
    (by decide)


/-- C4: for every byte string, the canonical bytes are computed by
stripping a leading UTF-8 BOM, replacing every CRLF and lone CR with LF,
splitting on LF, and returning the lines strictly before the first line
whose content, after stripping leading whitespace and case-folding,
begins with `sign:`, rejoined with LF — or the entire normalized content
when no such line exists. -/
theorem c4_canonical_spec (content : List Nat) :
    canonical_bytes content = canonicalSpecC4 content := by
  simp only [canonical_bytes, canonicalSpecC4, normalizeBytes_eq_onePass]
  cases hany : (splitSep 10 (normalizeOnePass (stripBOM content))).any isSignLineB
  · rw [linesBeforeSign_eq_none hany]
    simp
  · rw [linesBeforeSign_eq_some hany]
    simp


/-! ## Claim C3: malformed `sec=` / `opensn=` lines -/

theorem pyRstrip_prefix (s : Str) : pyRstrip s <+: s := by
  rw [pyRstrip]
  have h : (s.reverse.dropWhile pyWs) <:+ s.reverse := List.dropWhile_suffix pyWs
  have h2 : (s.reverse.dropWhile pyWs).reverse <+: s.reverse.reverse :=
    List.reverse_prefix.mpr h
  simpa using h2


theorem pyStrip_prefix_lstrip (s : Str) : pyStrip s <+: pyLstrip s := by
  rw [pyStrip]
  exact pyRstrip_prefix (pyLstrip s)


theorem hash_beq_false_of_lower {c a : Char} (hc : asciiLowerChar c = a)
    (ha : asciiLowerChar '#' ≠ a) : ('#' == c) = false := by
  by_cases h : c = '#'
  · subst h; exact absurd hc ha
  · exact beq_eq_false_iff_ne.mpr (fun hh => h hh.symm)


/-- A line whose stripped, lower-cased content starts with a character
other than (lower of) `#` is neither blank nor a comment. -/
theorem blank_comment_of_strip_lower {line : Str} {a : Char} {t : Str}
    (ht : a :: t = pyLower (pyStrip line)) (ha : asciiLowerChar '#' ≠ a) :
    is_blank line = false ∧ is_comment line = false := by
  rcases hS : pyStrip line with _ | ⟨c, r⟩
  · rw [hS] at ht; simp [pyLower] at ht
  · constructor
    · rw [is_blank, hS]; rfl
    · rw [is_comment]
      have hpre2 : pyStrip line <+: pyLstrip line := pyStrip_prefix_lstrip line
      rw [hS] at hpre2
      obtain ⟨t2, ht2⟩ := hpre2
      rw [← ht2]
      rw [hS] at ht
      simp only [pyLower, List.map_cons, List.cons.injEq] at ht
      have hcne : ('#' == c) = false := hash_beq_false_of_lower ht.1.symm ha
      simp [List.isPrefixOf, hcne]


/-- The fall-through of `_parse_node` for a `sec=` line failing its regex:
none of the later prefix tests can match, so the unknown-command case is
reached with the line consumed. -/
theorem parse_node_sec_fall (mode : ParseMode) (line : Str) (rest : List Str) (t : Str)
    (ht : "sec=".toList ++ t = pyLower (pyStrip line))
    (hblank : is_blank line = false)
    (hcomment : is_comment line = false)
    (hfail : reGroupsAfterEq ("sec=".toList) (pyStrip line) = none) :
    parse_node mode line rest =
      (match mode with
       | .strict => .error ("Unknown command in strict mode: ".toList ++ line)
       | .lenient => .ok (some (.unknown line), rest.drop 1)) := by
  rw [parse_node.eq_def, ← ht]
  rw [if_neg (by simp [hblank, hcomment])]
  rw [if_neg (by simp [List.isPrefixOf] :
    ¬(("title:".toList.isPrefixOf ("sec=".toList ++ t)) = true))]
  rw [if_neg (by simp [List.isPrefixOf] :
    ¬(("sec:".toList.isPrefixOf ("sec=".toList ++ t) &&
      !(((pyStrip line).take 4).contains '=')) = true))]
  rw [if_pos (by simp [List.isPrefixOf] :
    (("sec=".toList.isPrefixOf ("sec=".toList ++ t)) = true))]
  rw [hfail]


/-- The fall-through of `_parse_node` for an `opensn=` line failing its
regex. -/
theorem parse_node_opensn_fall (mode : ParseMode) (line : Str) (rest : List Str) (t : Str)
    (ht : "opensn=".toList ++ t = pyLower (pyStrip line))
    (hblank : is_blank line = false)
    (hcomment : is_comment line = false)
    (hfail : reGroupsAfterEq ("opensn=".toList) (pyStrip line) = none) :
    parse_node mode line rest =
      (match mode with
       | .strict => .error ("Unknown command in strict mode: ".toList ++ line)
       | .lenient => .ok (some (.unknown line), rest.drop 1)) := by
  rw [parse_node.eq_def, ← ht]
  rw [if_neg (by simp [hblank, hcomment])]
  rw [if_neg (by simp [List.isPrefixOf] :
    ¬(("title:".toList.isPrefixOf ("opensn=".toList ++ t)) = true))]
  rw [if_neg (by simp [List.isPrefixOf] :
    ¬(("sec:".toList.isPrefixOf ("opensn=".toList ++ t) &&
      !(((pyStrip line).take 4).contains '=')) = true))]
  rw [if_neg (by simp [List.isPrefixOf] :
    ¬(("sec=".toList.isPrefixOf ("opensn=".toList ++ t)) = true))]
  rw [if_neg (by simp [List.isPrefixOf] :
    ¬(("para:".toList.isPrefixOf ("opensn=".toList ++ t)) = true))]
  rw [if_neg (by simp :
    ¬("opensn=".toList ++ t = "break-line".toList ∨
      "opensn=".toList ++ t = "break-line:".toList))]
  rw [if_neg (by simp [List.isPrefixOf] :
    ¬(("olist:".toList.isPrefixOf ("opensn=".toList ++ t)) = true))]
  rw [if_neg (by simp : ¬("opensn=".toList ++ t = "code:".toList))]
  rw [if_neg (by simp [List.isPrefixOf] :
    ¬(("img:=".toList.isPrefixOf ("opensn=".toList ++ t)) = true))]
  rw [if_neg (by simp [List.isPrefixOf] :
    ¬(("link:".toList.isPrefixOf ("opensn=".toList ++ t)) = true))]
  rw [if_neg (by simp [List.isPrefixOf] :
    ¬(("linktxt:".toList.isPrefixOf ("opensn=".toList ++ t)) = true))]
  rw [if_pos (by simp [List.isPrefixOf] :
    (("opensn=".toList.isPrefixOf ("opensn=".toList ++ t)) = true))]
  rw [hfail]


/-- C3 (amended): for every line that, after trimming and case-folding,
begins with `sec=` or `opensn=` but fails the corresponding regex, strict
mode aborts the parse with an unknown-command error, while lenient mode
emits an `unknown` node for the line and additionally consumes the next
line. -/
theorem c3_amended (line : Str) (rest : List Str)
    (hks : (("sec=".toList.isPrefixOf (pyLower (pyStrip line))) = true ∧
            reGroupsAfterEq ("sec=".toList) (pyStrip line) = none) ∨
           (("opensn=".toList.isPrefixOf (pyLower (pyStrip line))) = true ∧
            reGroupsAfterEq ("opensn=".toList) (pyStrip line) = none)) :
    parse_node .strict line rest =
      .error ("Unknown command in strict mode: ".toList ++ line) ∧
    parse_node .lenient line rest = .ok (some (.unknown line), rest.drop 1) := by
  rcases hks with ⟨hpre, hf⟩ | ⟨hpre, hf⟩
  · have hp : "sec=".toList <+: pyLower (pyStrip line) := by simpa using hpre
    obtain ⟨t, ht⟩ := hp
    have hbc := blank_comment_of_strip_lower
      (t := "ec=".toList ++ t) (by rw [← ht]; rfl) (by decide)
    exact ⟨parse_node_sec_fall .strict line rest t ht hbc.1 hbc.2 hf,
           parse_node_sec_fall .lenient line rest t ht hbc.1 hbc.2 hf⟩
  · have hp : "opensn=".toList <+: pyLower (pyStrip line) := by simpa using hpre
    obtain ⟨t, ht⟩ := hp
    have hbc := blank_comment_of_strip_lower
      (t := "pensn=".toList ++ t) (by rw [← ht]; rfl) (by decide)
    exact ⟨parse_node_opensn_fall .strict line rest t ht hbc.1 hbc.2 hf,
           parse_node_opensn_fall .lenient line rest t ht hbc.1 hbc.2 hf⟩


/-- C3 counterexample: the malformed line `sec=foo` (no colon, so the
regex fails) is not swallowed silently: in strict mode the whole parse
errors, and in lenient mode an `unknown` node is emitted for it and the
following `para: hi` line is consumed without producing a node — not
"as if the malformed line had not been present". -/
theorem c3_counterexample :
    parse .strict ("<super-notation-v1>\nsec=foo".toList) =
      .error ("Unknown command in strict mode: sec=foo".toList) ∧
    parse .lenient ("<super-notation-v1>\nsec=foo\npara: hi".toList) =
      .ok { metadata := [], nodes := [Node.unknown ("sec=foo".toList)],
            is_closed := false, signature := none } := by decide


theorem c3_amended_witness :
    parse_node .strict ("sec=foo".toList) ["para: x".toList] =
      .error ("Unknown command in strict mode: sec=foo".toList) ∧
    parse_node .lenient ("sec=foo".toList) ["para: x".toList] =
      .ok (some (.unknown ("sec=foo".toList)), []) :=
  c3_amended ("sec=foo".toList) ["para: x".toList] (Or.inl ⟨by decide, by decide⟩)


/-! ## Claim C6: inline formatting of a concrete paragraph -/

set_option maxRecDepth 400000 in
/-- C6: rendering the paragraph `\x7bb:X\x7d and \x7b\x7bliteral\x7d\x7d`
produces exactly one output fragment, containing `<strong>X</strong>` and
the literal text `\x7bliteral\x7d` (the doubled braces survive the
formatting substitutions and are restored as single literal braces); and
`<`, `>`, `&` characters from the user text are HTML-escaped, shown on
the same paragraph extended with ` <&>`. -/
theorem c6_inline_formatting :
    render_node (Node.para ("\x7bb:X\x7d and \x7b\x7bliteral\x7d\x7d".toList)) =
      ["<p class=\"sn-para\"><strong>X</strong> and \x7bliteral\x7d</p>".toList] ∧
    ("<strong>X</strong>".toList <:+:
      format_inline ("\x7bb:X\x7d and \x7b\x7bliteral\x7d\x7d".toList)) ∧
    ("\x7bliteral\x7d".toList <:+:
      format_inline ("\x7bb:X\x7d and \x7b\x7bliteral\x7d\x7d".toList)) ∧
    format_inline ("\x7bb:X\x7d and \x7b\x7bliteral\x7d\x7d <&>".toList) =
      "<strong>X</strong> and \x7bliteral\x7d &lt;&amp;&gt;".toList := by decide


/-! ## Claim C7: the list sub-grammar -/

/-- Complete characterization of the item-collection loop of
`_parse_list`: the consumed lines are split off the input; every consumed
line is a comment (skipped) or a non-blank non-command line (kept,
trimmed); collection stops right before the first blank or command line,
which is not consumed. -/
theorem parse_list_items_spec (L : List Str) :
    ∃ consumed rest2,
      parse_list_items L =
        ((consumed.filter (fun x => !(is_comment x))).map pyStrip, rest2) ∧
      L = consumed ++ rest2 ∧
      (∀ x ∈ consumed, is_comment x = true ∨
        (is_blank x = false ∧ looks_like_command x = false)) ∧
      (∀ h2 t2, rest2 = h2 :: t2 → is_blank h2 = true ∨ looks_like_command h2 = true) := by
  induction L with
  | nil => exact ⟨[], [], by simp [parse_list_items], rfl, by simp, by simp⟩
  | cons line rest ih =>
    by_cases hb : is_blank line = true
    · refine ⟨[], line :: rest, by simp [parse_list_items, hb], rfl, by simp, ?_⟩
      intro h2 t2 hht
      injection hht with h1 _
      subst h1
      exact Or.inl hb
    · by_cases hc : is_comment line = true
      · obtain ⟨consumed, rest2, heq, hsplit, hprop, hstop⟩ := ih
        refine ⟨line :: consumed, rest2, ?_, by simp [hsplit], ?_, hstop⟩
        · simp [parse_list_items, hb, hc, heq]
        · intro x hx
          rcases List.mem_cons.mp hx with rfl | hx
          · exact Or.inl hc
          · exact hprop x hx
      · by_cases hcmd : looks_like_command line = true
        · refine ⟨[], line :: rest, by simp [parse_list_items, hb, hc, hcmd], rfl,
            by simp, ?_⟩
          intro h2 t2 hht
          injection hht with h1 _
          subst h1
          exact Or.inr hcmd
        · obtain ⟨consumed, rest2, heq, hsplit, hprop, hstop⟩ := ih
          refine ⟨line :: consumed, rest2, ?_, by simp [hsplit], ?_, hstop⟩
          · simp [parse_list_items, hb, hc, hcmd, heq]
          · intro x hx
            rcases List.mem_cons.mp hx with rfl | hx
            · exact Or.inr ⟨by simpa using hb, by simpa using hcmd⟩
            · exact hprop x hx


/-- C7 (amended): a line beginning with `olist:` succeeds iff it matches
`olist:(bullet|numbers)` as a prefix (case-insensitive; `re.match`
anchors only at the start), and otherwise fails with the invalid-list
error; on success the following lines are appended trimmed as items
until a blank or command line (not consumed) ends the list, with comment
lines skipped. -/
theorem c7_amended (l : Str) (rest : List Str) :
    (olistRe l = none →
      parse_list l rest = .error ("Invalid list type: ".toList ++ l)) ∧
    (∀ ty, olistRe l = some ty →
      ∃ consumed rest2,
        rest = consumed ++ rest2 ∧
        parse_list l rest =
          .ok (.list ty ((consumed.filter (fun x => !(is_comment x))).map pyStrip),
            rest2) ∧
        (∀ x ∈ consumed, is_comment x = true ∨
          (is_blank x = false ∧ looks_like_command x = false)) ∧
        (∀ h2 t2, rest2 = h2 :: t2 →
          is_blank h2 = true ∨ looks_like_command h2 = true)) := by
  constructor
  · intro h
    simp [parse_list, h]
  · intro ty h
    obtain ⟨consumed, rest2, heq, hsplit, hprop, hstop⟩ := parse_list_items_spec rest
    refine ⟨consumed, rest2, hsplit, ?_, hprop, hstop⟩
    simp only [parse_list, h]
    rw [heq]


set_option maxRecDepth 400000 in
/-- C7 counterexample: the line `olist:bulletz` does not match
`olist:(bullet|numbers)` exactly, yet the parse succeeds (as a bullet
list), because `re.match` only anchors at the start of the string. -/
theorem c7_counterexample :
    parse .lenient ("<super-notation-v1>\nolist:bulletz\nitem one".toList) =
      .ok { metadata := [], nodes := [Node.list ("bullet".toList) [("item one".toList)]],
            is_closed := false, signature := none } := by decide


theorem c7_amended_witness :
    parse_list ("olist:x".toList) ([] : List Str) =
      .error ("Invalid list type: olist:x".toList) :=
  (c7_amended ("olist:x".toList) []).1 (by decide)


theorem sigCloseFold_snd (nodes : List Node) (acc : Option Str × Bool) :
    (nodes.foldl sigCloseFold acc).2 = (acc.2 || nodes.any isCloseNode) := by
  induction nodes generalizing acc with
  | nil => simp
  | cons n rest ih =>
    rw [List.foldl_cons, ih]
    cases n <;> simp [sigCloseFold, isCloseNode, Bool.or_assoc]


theorem sigCloseFold_fst (nodes : List Node) (acc : Option Str × Bool) :
    (nodes.foldl sigCloseFold acc).1 =
      (match lastSig nodes with
       | some s => some s
       | none => acc.1) := by
  induction nodes generalizing acc with
  | nil => simp [lastSig]
  | cons n rest ih =>
    rw [List.foldl_cons, ih]
    cases hr : lastSig rest
    · simp only [lastSig, hr]
      cases n <;> simp [sigCloseFold]
    · simp [lastSig, hr]


theorem any_isCloseNode (nodes : List Node) :
    nodes.any isCloseNode = true ↔ Node.close ∈ nodes := by
  rw [List.any_eq_true]
  constructor
  · rintro ⟨x, hx, hc⟩
    cases x <;> simp [isCloseNode] at hc
    exact hx
  · intro h
    exact ⟨Node.close, h, rfl⟩


/-- C8: for every successfully parsed document, the sealed flag is true
iff a `close` node appears in the node sequence, and the signature field
is the value of the last `signature` node (none when there is none). -/
theorem c8_doc_invariants (mode : ParseMode) (content : Str) (doc : Document)
    (h : parse mode content = .ok doc) :
    (doc.is_closed = true ↔ Node.close ∈ doc.nodes) ∧
    doc.signature = lastSig doc.nodes := by
  unfold parse at h
  dsimp only at h
  rcases hh : parse_header (splitSep '\n' content) with _ | r1
  · rw [hh] at h
    simp at h
  · rw [hh] at h
    dsimp only at h
    rcases hb : parse_body mode (parse_metadata r1).2 with e | nodes
    · rw [hb] at h
      simp at h
    · rw [hb] at h
      dsimp only at h
      injection h with h2
      subst h2
      refine ⟨?_, ?_⟩
      · dsimp only
        rw [sigCloseFold_snd]
        simp only [Bool.false_or]
        exact any_isCloseNode nodes
      · dsimp only
        rw [sigCloseFold_fst]
        cases hls : lastSig nodes <;> simp


set_option maxRecDepth 400000 in
theorem c8_doc_invariants_witness :
    (c8doc.is_closed = true ↔ Node.close ∈ c8doc.nodes) ∧
    c8doc.signature = lastSig c8doc.nodes :=
  c8_doc_invariants .lenient ("<super-notation-v1>\npara: a\nsign: ABC\nclose:".toList)
    c8doc (by decide)


theorem extract_title_nodes_eq (nodes : List Node) :
    extract_title_nodes nodes =
      ((nodes.filterMap titleText).head?).getD ("Untitled Document".toList) := by
  induction nodes with
  | nil => simp [extract_title_nodes]
  | cons n rest ih =>
    cases n <;> simp [extract_title_nodes, titleText, ih]


/-- C9: the rendered output contains the `<title>` head element holding
the HTML-escaped (not inline-formatted) text of the first `title` node,
with the fallback `Untitled Document` when there is none. -/
theorem c9_title_element (doc : Document) :
    ("    <title>".toList ++ htmlEscape (extract_title doc) ++ "</title>".toList) ∈
      render_lines doc ∧
    extract_title doc =
      ((doc.nodes.filterMap titleText).head?).getD ("Untitled Document".toList) := by
  constructor
  · unfold render_lines
    simp
  · exact extract_title_nodes_eq doc.nodes


/-! ## Claim C10: signature and seal nodes in the rendered output -/

/-- `html.escape` leaves no unescaped `<` in its output. -/
theorem htmlEscape_no_lt (s : Str) : '<' ∉ htmlEscape s := by
  rw [htmlEscape]
  intro h
  rw [List.mem_flatten] at h
  obtain ⟨l, hl, hcl⟩ := h
  rw [List.mem_map] at hl
  obtain ⟨c, _, rfl⟩ := hl
  rw [htmlEscapeChar] at hcl
  by_cases h1 : c = '&'
  · rw [if_pos h1] at hcl
    exact absurd hcl (by decide)
  · rw [if_neg h1] at hcl
    by_cases h2 : c = '<'
    · rw [if_pos h2] at hcl
      exact absurd hcl (by decide)
    · rw [if_neg h2] at hcl
      by_cases h3 : c = '>'
      · rw [if_pos h3] at hcl
        exact absurd hcl (by decide)
      · rw [if_neg h3] at hcl
        by_cases h4 : c = '"'
        · rw [if_pos h4] at hcl
          exact absurd hcl (by decide)
        · rw [if_neg h4] at hcl
          by_cases h5 : c = Char.ofNat 39
          · rw [if_pos h5] at hcl
            exact absurd hcl (by decide)
          · rw [if_neg h5] at hcl
            rw [List.mem_singleton] at hcl
            exact h2 hcl.symm


/-- The seal banner is not the title line, whatever the escaped title
text is (the two fragments differ at their first character). -/
theorem sealBanner_ne_title (t : Str) :
    sealBanner ≠ "    <title>".toList ++ t ++ "</title>".toList := by
  simp [sealBanner, sealIcon]


/-- No per-node fragment equals the seal banner: every fragment either
starts with a concrete character sequence that diverges from the
banner's, or (the code-block body) is an `htmlEscape` image, which
cannot contain the banner's leading `<`. -/
theorem sealBanner_not_in_render_node (n : Node) : sealBanner ∉ render_node n := by
  cases n with
  | title t => simp [render_node, sealBanner, sealIcon]
  | secDef sid => simp [render_node, sealBanner, sealIcon]
  | secLink sid t => simp [render_node, sealBanner, sealIcon]
  | para t => simp [render_node, sealBanner, sealIcon]
  | breakLine => simp [render_node, sealBanner, sealIcon]
  | list ty items =>
    by_cases hty : ty = "numbers".toList
    · simp [render_node, sealBanner, sealIcon, hty]
    · have hty2 : ¬(ty = ['n', 'u', 'm', 'b', 'e', 'r', 's']) := by simpa using hty
      simp [render_node, sealBanner, sealIcon, hty2]
  | codeBlock code =>
    intro h
    simp only [render_node, List.mem_cons, List.not_mem_nil, or_false] at h
    rcases h with h | h | h
    · exact absurd h (by decide)
    · have hin : '<' ∈ htmlEscape code := by
        rw [← h]
        decide
      exact htmlEscape_no_lt code hin
    · exact absurd h (by decide)
  | image p alt => simp [render_node, sealBanner, sealIcon]
  | link url => simp [render_node, sealBanner, sealIcon]
  | linkText t url => simp [render_node, sealBanner, sealIcon]
  | openSN loc t => simp [render_node, sealBanner, sealIcon]
  | endNewSN fp => simp [render_node, sealBanner, sealIcon, nextArrow]
  | signature s => simp [render_node]
  | close => simp [render_node]
  | unknown raw => simp [render_node, sealBanner, sealIcon]


set_option maxRecDepth 400000 in
/-- C10: `signature` and `close` nodes produce no output fragment of
their own, and the seal banner appears in the rendered output exactly
when the document is sealed and its signature is truthy (non-`none`,
non-empty). -/
theorem c10_signature_rendering :
    (∀ s, render_node (Node.signature s) = []) ∧
    render_node Node.close = [] ∧
    (∀ doc : Document, sealBanner ∈ render_lines doc ↔
      (doc.is_closed = true ∧ sigTruthy doc.signature = true)) := by
  refine ⟨fun s => rfl, rfl, fun doc => ?_⟩
  constructor
  · intro h
    by_cases hcond : (doc.is_closed && sigTruthy doc.signature) = true
    · simpa [Bool.and_eq_true] using hcond
    · exfalso
      unfold render_lines at h
      rw [if_neg hcond] at h
      rcases List.mem_append.mp h with h | h
      · rcases List.mem_append.mp h with h | h
        · rcases List.mem_append.mp h with h | h
          · simp only [List.mem_cons, List.not_mem_nil, or_false] at h
            rcases h with h|h|h|h|h|h|h|h|h|h|h|h
            · exact absurd h (by decide)
            · exact absurd h (by decide)
            · exact absurd h (by decide)
            · exact absurd h (by decide)
            · exact absurd h (by decide)
            · exact sealBanner_ne_title (htmlEscape (extract_title doc)) h
            · exact absurd h (by decide)
            · exact absurd h (by decide)
            · exact absurd h (by decide)
            · exact absurd h (by decide)
            · exact absurd h (by decide)
            · exact absurd h (by decide)
          · rw [List.mem_flatten] at h
            obtain ⟨l, hl, hmem⟩ := h
            rw [List.mem_map] at hl
            obtain ⟨n, _, rfl⟩ := hl
            exact sealBanner_not_in_render_node n hmem
        · exact absurd h (List.not_mem_nil _)
      · exact absurd h (by decide)
  · rintro ⟨h1, h2⟩
    unfold render_lines
    rw [if_pos (by rw [h1, h2]; rfl)]
    simp


/-! ## Claim C2: tampering detection -/

/-- C2 (amended): whenever the extracted signature differs from the
recomputed one, verification reports invalid and the mismatch message
contains both the expected (recomputed) and found (extracted) values.
Edits that survive canonicalization are exactly those changing the
canonical bytes; an edit erased by newline normalization (see the
counterexample) is not detected. -/
theorem c2_amended (content : List Nat) (s : Str)
    (hex : extract_signature content = some s)
    (hne : compute_signature content ≠ s) :
    (verify_signature content).1 = false ∧
    (("Expected: ".toList ++ compute_signature content) <:+:
      (verify_signature content).2) ∧
    (("Found:    ".toList ++ s) <:+: (verify_signature content).2) := by
  unfold verify_signature
  rw [hex]
  dsimp only
  rw [if_neg (fun hh => hne hh.symm)]
  refine ⟨rfl, ?_, ?_⟩
  · have hsplit : " Signature mismatch!\nExpected: ".toList =
        " Signature mismatch!\n".toList ++ "Expected: ".toList := by decide
    refine ⟨crossMark :: " Signature mismatch!\n".toList,
      "\nFound:    ".toList ++ s, ?_⟩
    rw [hsplit]
    simp [List.append_assoc]
  · have hsplit : "\nFound:    ".toList = '\n' :: "Found:    ".toList := by decide
    refine ⟨crossMark :: " Signature mismatch!\nExpected: ".toList ++
      compute_signature content ++ ['\n'], [], ?_⟩
    rw [hsplit]
    simp [List.append_assoc]


set_option maxRecDepth 400000 in
/-- C2 counterexample: deleting the byte at index 1 — the CR of the CRLF,
strictly before the `sign:` line — leaves the canonical bytes unchanged
(CRLF and LF both normalize to LF), so the edited file still verifies as
valid rather than reporting a mismatch. -/
theorem c2_counterexample :
    ("a\r\nsign: SHA256-CA978112CA1BBDCAFAC231B39A23DC4DA786EFF8147C4E72B9807785AFEE48BB\n".toList.map Char.toNat)[1]? =
      some 13 ∧
    (("a\r\nsign: SHA256-CA978112CA1BBDCAFAC231B39A23DC4DA786EFF8147C4E72B9807785AFEE48BB\n".toList.map Char.toNat).eraseIdx 1 =
      "a\nsign: SHA256-CA978112CA1BBDCAFAC231B39A23DC4DA786EFF8147C4E72B9807785AFEE48BB\n".toList.map Char.toNat) ∧
    (verify_signature
      ("a\r\nsign: SHA256-CA978112CA1BBDCAFAC231B39A23DC4DA786EFF8147C4E72B9807785AFEE48BB\n".toList.map Char.toNat)).1 =
      true ∧
    (verify_signature
      (("a\r\nsign: SHA256-CA978112CA1BBDCAFAC231B39A23DC4DA786EFF8147C4E72B9807785AFEE48BB\n".toList.map Char.toNat).eraseIdx 1)).1 =
      true := by decide


set_option maxRecDepth 400000 in
theorem c2_amended_witness :
    (verify_signature ("a\nsign: SHA256-XYZ\n".toList.map Char.toNat)).1 = false ∧
    (("Expected: ".toList ++
        compute_signature ("a\nsign: SHA256-XYZ\n".toList.map Char.toNat)) <:+:
      (verify_signature ("a\nsign: SHA256-XYZ\n".toList.map Char.toNat)).2) ∧
    (("Found:    ".toList ++ "SHA256-XYZ".toList) <:+:
      (verify_signature ("a\nsign: SHA256-XYZ\n".toList.map Char.toNat)).2) :=
  c2_amended ("a\nsign: SHA256-XYZ\n".toList.map Char.toNat) ("SHA256-XYZ".toList)
    (by decide) (by decide)

end SN

